import Mathlib

/-!
# server-push: the chunk buffer and the viewport clipper of `server.c`

A shallow embedding of `src/server.c`.

Conventions of the embedding.

* A `FILE*` opened for writing is the list of bytes written to it so far.
* A C string or `char` block is a list of bytes (`List Nat`).
* C `int` values are `Int`; the sentinel `INT_MIN` is the 32-bit one.  Signed overflow is
  undefined in C and is not modelled.
* `uint16_t` values are `Nat`; the cast `(uint16_t)v` is `v % 65536`, and the counter `len`
  wraps at `65536`.
* `double` arithmetic is carried out exactly, in `ℚ`; the cast `(int)` truncates toward zero.
* The functions of the embedding are total.  Where C divides by zero the embedding still has a
  value, which stands for nothing in C: the `int` division `/ status->resolution` with
  resolution 0 traps, and a division by a zero factor gives an infinity or a NaN whose cast to
  `int` is undefined.  `divisions_defined` is the condition under which no such division
  occurs.
* The stack arrays `samples` and `record` are lists of unbounded length; the index `l` is twice
  the number of stored points.
-/

namespace ServerPush

/-! ## Data model -/

/-- The least C `int`; `last_p.x = INT_MIN` means that no sample was mapped yet. -/
def INT_MIN : Int := -2147483648

/-- The table `colors`: 16 RGB triples, 48 `uint16_t` units. -/
def colors : List Nat :=
  [ 180, 0,   0,
    0,   180, 0,
    0,   0,   180,
    180, 0,   180,
    0,   180, 180,
    180, 180, 0,
    255, 127, 0,
    0,   102, 0,
    77,  0,   153,
    153, 153, 153,
    255, 153, 153,
    255, 255, 0,
    153, 153, 255,
    102, 0,   0,
    0,   0,   102,
    0,   64,  64 ]

/-- The value of `sizeof(colors)`: two bytes for each `uint16_t` unit. -/
def sizeof_colors : Nat := colors.length * 2

/-- The struct `point_s`. -/
structure point_t where
  x : Int
  y : Int
deriving DecidableEq

/-- The struct `buffer_s`.  `buf` is the content of the allocated block from offset 0 on; only
its first `used` bytes are staged.  The field `available_size` is never read or written. -/
structure buffer_t where
  buf : List Nat
  size : Nat
  used : Nat
  flush_size : Nat
deriving DecidableEq

/-- The struct `client_status_s`. -/
structure client_status_t where
  view : point_t
  frame_top : point_t
  frame_bottom : point_t
  mask : Nat
  resolution : Int
deriving DecidableEq

/-- Modelled from the spec: `base.h` is not part of the sources.  A trajectory is an ordered
sequence of samples with integer x, y (`n_samples` is the length of `samples`). -/
structure trajectory_t where
  samples : List point_t
deriving DecidableEq

/-- Modelled from the spec: `base.h` is not part of the sources.  A dataset is an ordered
sequence of trajectories (`n_trajectories` is the length of `trajectories`). -/
structure dataset_t where
  trajectories : List trajectory_t
deriving DecidableEq

/-- Modelled from the spec: `base.h` is not part of the sources.  A group is an ordered
sequence of trajectory indices into the dataset. -/
structure group_t where
  trajectories : List Nat
deriving DecidableEq

/-- Modelled from the spec: `base.h` is not part of the sources.  The group list is an ordered
sequence of groups (`n_groups` is the length of `groups`). -/
structure group_list_t where
  groups : List group_t
deriving DecidableEq

/-- An output stream: the bytes written to it so far. -/
abbrev FILE := List Nat

/-- The bytes of a C string literal. -/
def cstr (s : String) : List Nat := s.toList.map Char.toNat

/-- The output of `printf("%x", n)`: lower-case hexadecimal without leading zeros. -/
def fmt_x (n : Nat) : List Nat := (Nat.toDigits 16 n).map Char.toNat

/-- The output of `printf("%d", n)` for a non-negative `n`. -/
def fmt_d (n : Nat) : List Nat := (Nat.toDigits 10 n).map Char.toNat

/-! ## Buffer -/

/-- The function `buffer_create`. -/
def buffer_create (size flush_size : Nat) : buffer_t :=
  { buf := [], size := size, used := 0, flush_size := flush_size }

/-- The local `header` of `buffer_send`. -/
def header : List Nat := cstr "Content-type: text/plain; charset=x-user-defined\n\n"

/-- The local `footer` of `buffer_send`. -/
def footer : List Nat := cstr "--loldongz101\r\n"

/-- The function `buffer_send`: one chunk is written to the stream and `used` is reset. -/
def buffer_send (stream : FILE) (b : buffer_t) : FILE × buffer_t :=
  (stream ++ fmt_x (b.used + header.length + footer.length) ++ cstr "\r\n"
      ++ header ++ b.buf.take b.used ++ footer ++ cstr "\r\n",
   { b with used := 0 })

/-- The function `buffer_append`: flush first when the threshold is reached or the block would
not fit, then copy `len` bytes of `s` to offset `used`. -/
def buffer_append (stream : FILE) (b : buffer_t) (s : List Nat) (len : Nat) : FILE × buffer_t :=
  let r := if b.used ≥ b.flush_size ∨ b.used + len ≥ b.size then buffer_send stream b
           else (stream, b)
  (r.1, { r.2 with buf := r.2.buf.take r.2.used ++ s.take len, used := r.2.used + len })

/-! ## Geometry transform -/

/-- The cast `(int)d` of a double: truncation toward zero. -/
def int_of_double (d : ℚ) : Int := Int.tdiv d.num d.den

/-- The cast `(uint16_t)v` of an `int`. -/
def uint16 (v : Int) : Nat := (v % 65536).toNat

/-- The local `x_factor` of `dataset_amalgamate2`. -/
def x_factor (status : client_status_t) : ℚ :=
  ((status.frame_bottom.x - status.frame_top.x : Int) : ℚ) / ((status.view.x : Int) : ℚ)

/-- The local `y_factor` of `dataset_amalgamate2`. -/
def y_factor (status : client_status_t) : ℚ :=
  ((status.frame_bottom.y - status.frame_top.y : Int) : ℚ) / ((status.view.y : Int) : ℚ)

/-- One coordinate of `new_p`:
`(int)((double)(v - top) / factor) / resolution * resolution`.  With `resolution = 0` the C
division traps and with `factor = 0` the cast is undefined; the value given here for those
inputs stands for nothing in C (see `divisions_defined`). -/
def new_coord (v top : Int) (factor : ℚ) (resolution : Int) : Int :=
  Int.tdiv (int_of_double (((v - top : Int) : ℚ) / factor)) resolution * resolution

/-- The point `new_p` computed from one sample. -/
def new_point (status : client_status_t) (smp : point_t) : point_t :=
  { x := new_coord smp.x status.frame_top.x (x_factor status) status.resolution,
    y := new_coord smp.y status.frame_top.y (y_factor status) status.resolution }

/-- The in-view test of `dataset_amalgamate2`, on the `int` point `new_p`. -/
def in_view (status : client_status_t) (p : point_t) : Bool :=
  decide (p.x ≥ 0) && decide (p.x < status.view.x) && decide (p.y ≥ 0)
    && decide (p.y < status.view.y)

/-! ## Clipper and record encoder -/

/-- One record as passed to `buffer_append`, in 16-bit units: `record[0..2]`, `record[3]` and
the points copied from `samples` to `record[4..]`. -/
structure record_t where
  rgb : List Nat
  len : Nat
  points : List (Nat × Nat)
deriving DecidableEq

/-- The three `memcpy` calls that fill `record` for group `g`. -/
def make_record (g : Nat) (len : Nat) (samples : List (Nat × Nat)) : record_t :=
  { rgb := (colors.drop ((g % (sizeof_colors / 24)) * 3)).take 3,
    len := len,
    points := samples.take len }

/-- The locals of the sample loop, and the records passed to `buffer_append` so far. -/
structure clip_t where
  last_p : point_t
  in_ : Bool
  samples : List (Nat × Nat)
  len : Nat
  emitted : List record_t
deriving DecidableEq

/-- The two units `(uint16_t)p.x`, `(uint16_t)p.y` stored for the point `p`. -/
def stored_point (p : point_t) : Nat × Nat := (uint16 p.x, uint16 p.y)

/-- The statements `samples[l++] = (uint16_t)p.x; samples[l++] = (uint16_t)p.y; len++;`. -/
def push_point (c : clip_t) (p : point_t) : clip_t :=
  { c with samples := c.samples ++ [stored_point p], len := (c.len + 1) % 65536 }

/-- The locals at the start of each trajectory. -/
def clip_init : clip_t :=
  { last_p := { x := INT_MIN, y := INT_MIN }, in_ := false, samples := [], len := 0,
    emitted := [] }

/-- The body of the sample loop of `dataset_amalgamate2`, applied to the already computed
`new_p`. -/
def clip_step (status : client_status_t) (g : Nat) (c : clip_t) (new_p : point_t) : clip_t :=
  if in_view status new_p then
    let c1 := if c.last_p.x ≠ INT_MIN ∧ c.in_ = false then push_point c c.last_p else c
    let c2 := if new_p.x ≠ c.last_p.x ∨ new_p.y ≠ c.last_p.y then push_point c1 new_p else c1
    { c2 with in_ := true, last_p := new_p }
  else
    let c1 :=
      if c.in_ = true then
        let c0 := push_point c new_p
        { c0 with emitted := c0.emitted ++ [make_record g c0.len c0.samples],
                  len := 0, samples := [] }
      else c
    { c1 with in_ := false, last_p := new_p }

/-- The body of the sample loop of `dataset_amalgamate2` for the sample `smp`. -/
def sample_step (status : client_status_t) (g : Nat) (c : clip_t) (smp : point_t) : clip_t :=
  clip_step status g c (new_point status smp)

/-- The loop `for(s = 1; s < tr->n_samples; s++)`, stopped once the sample of index `s` has
been handled (`s = n_samples - 1` or more is the whole loop). -/
def sample_loop_upto (status : client_status_t) (g : Nat) (tr : trajectory_t) (s : Nat) :
    clip_t :=
  ((tr.samples.take (s + 1)).drop 1).foldl (sample_step status g) clip_init

/-- The whole loop `for(s = 1; s < tr->n_samples; s++)`. -/
def sample_loop (status : client_status_t) (g : Nat) (tr : trajectory_t) : clip_t :=
  (tr.samples.drop 1).foldl (sample_step status g) clip_init

/-- The records one trajectory of group `g` passes to `buffer_append`: those of the sample
loop, then the one of the final `if(in == 1)`. -/
def trajectory_records (status : client_status_t) (g : Nat) (tr : trajectory_t) :
    List record_t :=
  let c := sample_loop status g tr
  if c.in_ = true then c.emitted ++ [make_record g c.len c.samples] else c.emitted

/-- The trajectory loop `for(t = 0; t < n_trajectories && t < 4; t++)` of one group. -/
def group_records (status : client_status_t) (dataset : dataset_t) (g : Nat) (grp : group_t) :
    List record_t :=
  (List.range (min grp.trajectories.length 4)).flatMap fun t =>
    trajectory_records status g
      (dataset.trajectories.getD (grp.trajectories.getD t 0) { samples := [] })

/-- The group loop of `dataset_amalgamate2`: all records passed to `buffer_append`, in call
order.  The shift `1 << g` is taken in 32 bits. -/
def amalgamate_records (status : client_status_t) (dataset : dataset_t)
    (groups : group_list_t) : List record_t :=
  (List.range groups.groups.length).flatMap fun g =>
    if status.mask &&& ((1 <<< g) % 2 ^ 32) = 0 then []
    else if (groups.groups.getD g { trajectories := [] }).trajectories.length ≠ 1 then
      group_records status dataset g (groups.groups.getD g { trajectories := [] })
    else []

/-- The two bytes of a `uint16_t` in memory (little-endian). -/
def le16 (u : Nat) : List Nat := [u % 256, u / 256 % 256]

/-- The 16-bit units of a record: `[R,G,B][len][x0,y0,...]`. -/
def record_units (r : record_t) : List Nat :=
  r.rgb ++ [r.len] ++ r.points.flatMap fun p => [p.1, p.2]

/-- The block `(char*)record` handed to `buffer_append`. -/
def record_bytes (r : record_t) : List Nat := (record_units r).flatMap le16

/-- The function `dataset_amalgamate2`: the marker `CLRS`, every record, then a flush. -/
def dataset_amalgamate2 (status : client_status_t) (dataset : dataset_t)
    (groups : group_list_t) (buf : buffer_t) (stream : FILE) : FILE × buffer_t :=
  let s0 := buffer_append stream buf (cstr "CLRS") 4
  let s1 := (amalgamate_records status dataset groups).foldl
    (fun s r => buffer_append s.1 s.2 (record_bytes r) ((r.len * 2 + 4) * 2)) s0
  buffer_send s1.1 s1.2

/-! ## Reading the output back -/

/-- The value of one ASCII hexadecimal digit (`0`-`9`, `a`-`f`). -/
def hex_digit_value (c : Nat) : Nat :=
  if 48 ≤ c ∧ c ≤ 57 then c - 48 else if 97 ≤ c ∧ c ≤ 102 then c - 87 else 0

/-- The number a string of ASCII hexadecimal digits announces, from the accumulator `acc`. -/
def hex_fold (acc : Nat) (ds : List Nat) : Nat :=
  ds.foldl (fun a c => a * 16 + hex_digit_value c) acc

/-- The number a string of ASCII hexadecimal digits announces. -/
def hex_value (ds : List Nat) : Nat := hex_fold 0 ds

/-- Whether a stored point lies in `[0, view.x) × [0, view.y)`. -/
def stored_in_view (status : client_status_t) (p : Nat × Nat) : Bool :=
  decide ((0 : Int) ≤ p.1) && decide ((p.1 : Int) < status.view.x)
    && decide ((0 : Int) ≤ p.2) && decide ((p.2 : Int) < status.view.y)

/-- Whether the relation holds between every two adjacent elements of the list. -/
def adjacent_all {α : Type} (R : α → α → Bool) : List α → Bool
  | a :: b :: l => R a b && adjacent_all R (b :: l)
  | _ => true

/-- No two adjacent points of the list are equal. -/
def no_adjacent_equal (l : List (Nat × Nat)) : Prop :=
  adjacent_all (fun a b => decide (a ≠ b)) l = true

instance (l : List (Nat × Nat)) : Decidable (no_adjacent_equal l) :=
  inferInstanceAs (Decidable (adjacent_all (fun a b => decide (a ≠ b)) l = true))

/-- The list of `new_p` values the sample loop computes for a trajectory, in order. -/
def mapped_samples (status : client_status_t) (tr : trajectory_t) : List point_t :=
  (tr.samples.drop 1).map (new_point status)

/-- No two consecutive values of `new_p` that differ as `int` points are stored as the same
pair of 16-bit units. -/
def casts_distinct (ms : List point_t) : Prop :=
  adjacent_all (fun p q => decide (p ≠ q → stored_point p ≠ stored_point q)) ms = true

instance (ms : List point_t) : Decidable (casts_distinct ms) :=
  inferInstanceAs (Decidable (adjacent_all
    (fun p q => decide (p ≠ q → stored_point p ≠ stored_point q)) ms = true))

/-! ## Concrete inputs -/

/-- A view request: view `(10,10)`, frame-top `(0,0)`, frame-bottom `(10,10)`, resolution `1`,
mask `1` (group 0 only). -/
def view10 : client_status_t :=
  { view := { x := 10, y := 10 }, frame_top := { x := 0, y := 0 },
    frame_bottom := { x := 10, y := 10 }, mask := 1, resolution := 1 }

/-- A trajectory that enters the view from `(100,100)` and leaves it to `(200,200)`. -/
def enter_exit_trajectory : trajectory_t :=
  { samples := [{ x := 0, y := 0 }, { x := 100, y := 100 }, { x := 5, y := 5 },
      { x := 200, y := 200 }] }

/-- A dataset holding `enter_exit_trajectory` twice. -/
def enter_exit_dataset : dataset_t :=
  { trajectories := [enter_exit_trajectory, enter_exit_trajectory] }

/-- One group made of the trajectories 0 and 1. -/
def pair_group : group_list_t := { groups := [{ trajectories := [0, 1] }] }

/-- A trajectory whose second sample is `65536` to the right of its third. -/
def wrap_trajectory : trajectory_t :=
  { samples := [{ x := 0, y := 0 }, { x := 65541, y := 5 }, { x := 5, y := 5 }] }

/-- A trajectory that enters the view from the negative side. -/
def negative_trajectory : trajectory_t :=
  { samples := [{ x := 0, y := 0 }, { x := -5, y := -5 }, { x := 5, y := 5 }] }

/-- The trajectory of scenario 2 of the specification. -/
def scenario2_trajectory : trajectory_t :=
  { samples := [{ x := 0, y := 0 }, { x := 5, y := 5 }, { x := 100, y := 100 }] }

/-! ## Invariants of the sample loop -/

/-- Every point of `l` that is neither the first nor the last lies in view. -/
def interior_in_view (status : client_status_t) (l : List (Nat × Nat)) : Prop :=
  ∀ i p, 0 < i → i + 1 < l.length → l[i]? = some p → stored_in_view status p = true

/-- Every point of `l` but the first lies in view. -/
def tail_in_view (status : client_status_t) (l : List (Nat × Nat)) : Prop :=
  ∀ i p, 0 < i → l[i]? = some p → stored_in_view status p = true

/-- The invariant of the sample loop behind the view bound of the interior points. -/
def view_inv (status : client_status_t) (c : clip_t) : Prop :=
  tail_in_view status c.samples ∧ (c.in_ = false → c.samples = []) ∧
    ∀ r ∈ c.emitted, interior_in_view status r.points

/-- The 16-bit cast keeps the two points apart when they differ as `int` points. -/
def cast_distinct (p q : point_t) : Prop := p ≠ q → stored_point p ≠ stored_point q

/-- No two adjacent points of the list are equal, as a chain. -/
def chain_distinct (l : List (Nat × Nat)) : Prop := List.Chain' (fun a b => a ≠ b) l

/-- The invariant of the sample loop behind the de-duplication. -/
def dedup_inv (status : client_status_t) (c : clip_t) : Prop :=
  chain_distinct c.samples
    ∧ (c.in_ = true → c.samples.getLast? = some (stored_point c.last_p))
    ∧ (c.in_ = true → in_view status c.last_p = true)
    ∧ (c.in_ = false → c.samples = [])
    ∧ ∀ r ∈ c.emitted, chain_distinct r.points

/-! ## Decoding a record, and the amalgamation as the specification words it -/

/-- The palette entry of index `k`: the RGB triple `colors[3k], colors[3k+1], colors[3k+2]`. -/
def palette_entry (k : Nat) : List Nat := (colors.drop (k * 3)).take 3

/-- The 16-bit units read back from little-endian bytes. -/
def units_of_bytes : List Nat → List Nat
  | lo :: hi :: rest => (lo + 256 * hi) :: units_of_bytes rest
  | _ => []

/-- The points read back from a sequence of units `x0,y0,x1,y1,...`. -/
def points_of_units : List Nat → List (Nat × Nat)
  | x :: y :: rest => (x, y) :: points_of_units rest
  | _ => []

/-- Decoding of a record per the layout `[R,G,B][count][x0,y0,...]`: the colour triple, the
count, and the `count` points that follow. -/
def decode_record (bytes : List Nat) : Option (List Nat × Nat × List (Nat × Nat)) :=
  match units_of_bytes bytes with
  | r :: g :: b :: count :: rest =>
    if count * 2 ≤ rest.length then some ([r, g, b], count, (points_of_units rest).take count)
    else none
  | _ => none

/-- The groups the specification selects, with their index: bit `g` of the mask is set and the
group contains more than one trajectory. -/
def selected_groups (status : client_status_t) (groups : group_list_t) : List (Nat × group_t) :=
  groups.groups.enum.filter fun gi =>
    status.mask.testBit gi.1 && decide (gi.2.trajectories.length > 1)

/-- The records as the specification words them: over the selected groups in increasing index
order, over the first `min(n_trajectories, 4)` trajectories of the group in order, the runs the
clipper yields for the trajectory. -/
def spec_records (status : client_status_t) (dataset : dataset_t) (groups : group_list_t) :
    List record_t :=
  (selected_groups status groups).flatMap fun gi =>
    (gi.2.trajectories.take 4).flatMap fun idx =>
      trajectory_records status gi.1 (dataset.trajectories.getD idx { samples := [] })

/-- A record whose units all fit 16 bits and whose count is its number of points. -/
def record_ok (r : record_t) : Prop :=
  r.rgb.length = 3 ∧ (∀ u ∈ r.rgb, u < 65536) ∧ r.len < 65536 ∧ r.len = r.points.length
    ∧ ∀ p ∈ r.points, p.1 < 65536 ∧ p.2 < 65536

/-- The invariant of the sample loop behind the well-formed records. -/
def encode_inv (c : clip_t) : Prop :=
  c.len = c.samples.length % 65536 ∧ (∀ p ∈ c.samples, p.1 < 65536 ∧ p.2 < 65536)
    ∧ ∀ r ∈ c.emitted, record_ok r

/-- Five groups of which only the last, of index 4, holds trajectories (0 and 1). -/
def five_groups : group_list_t :=
  { groups := [{ trajectories := [] }, { trajectories := [] }, { trajectories := [] },
      { trajectories := [] }, { trajectories := [0, 1] }] }

/-- The view request `view10` with mask `16`: group 4 only. -/
def view10_group4 : client_status_t := { view10 with mask := 16 }

/-- Four groups: the groups 0 and 2 hold the trajectories 0 and 1, group 1 holds one trajectory
only, group 3 lists five trajectory indices. -/
def mixed_groups : group_list_t :=
  { groups := [{ trajectories := [0, 1] }, { trajectories := [0] }, { trajectories := [0, 1] },
      { trajectories := [1, 0, 1, 0, 1] }] }

/-! ## Request handler -/

/-- A connection `FILE*` opened `r+`: the bytes not yet read from it and the bytes written to
it. -/
structure stream_t where
  rd : List Nat
  wr : FILE
deriving DecidableEq

/-- The struct `amalgamate_config_s`, without `port`, `datafile` and `grpfile`.  `htmlfile` is
the content of the file of that name (`none` when `fopen` fails); `n_streams` is the length of
`streams`, and a `NULL` entry is `none`. -/
structure amalgamate_config_t where
  htmlfile : Option (List Nat)
  buf : buffer_t
  streams : List (Option stream_t)
deriving DecidableEq

/-- The result of `fgets`: the bytes stored, the bytes left unread, and whether the end of the
stream was hit (`feof`). -/
structure fgets_t where
  line : List Nat
  rest : List Nat
  eof : Bool
deriving DecidableEq

/-- The call `fgets(buf, n + 1, stream)`: at most `n` bytes, up to and including a newline. -/
def fgets : Nat → List Nat → fgets_t
  | 0, input => { line := [], rest := input, eof := false }
  | _ + 1, [] => { line := [], rest := [], eof := true }
  | n + 1, c :: input =>
    if c = 10 then { line := [c], rest := input, eof := false }
    else
      let r := fgets n input
      { r with line := c :: r.line }

/-- The C string held by a block of bytes: the bytes before the first NUL. -/
def c_string (block : List Nat) : List Nat := block.takeWhile fun c => c ≠ 0

/-- The loop `while(buf[strlen(buf) - 1] == '\n' || buf[strlen(buf) - 1] == '\r')` that cuts
the line ends off.  On the empty string the C code reads `buf[-1]`; that byte is taken to be
neither of the two. -/
def strip_eol (s : List Nat) : List Nat :=
  (s.reverse.dropWhile fun c => c = 10 ∨ c = 13).reverse

/-- One `fgets` into `buf` followed by the `feof` test and the stripping loop: `none` when the
end of the stream was hit, else the stripped line and the unread rest. -/
def read_line (input : List Nat) : Option (List Nat × List Nat) :=
  let r := fgets 1023 input
  if r.eof = true then none else some (strip_eol (c_string r.line), r.rest)

/-- The loop `while(strlen(buf))` that reads on to the blank line: `none` when the end of the
stream is hit first, else the unread rest.  The first argument bounds the number of rounds;
the length of the input plus one is always enough. -/
def skip_headers : Nat → List Nat → List Nat → Option (List Nat)
  | 0, _, _ => none
  | k + 1, buf, input =>
    if buf = [] then some input
    else
      match read_line input with
      | none => none
      | some (b, rest) => skip_headers k b rest

/-- The reading part of `client_handle_request`: the request line `cmd` and the input left
after the blank line; `none` when the end of the stream is hit. -/
def read_request (input : List Nat) : Option (List Nat × List Nat) :=
  match read_line input with
  | none => none
  | some (cmd, rest) =>
    match skip_headers (rest.length + 1) cmd rest with
    | none => none
    | some rest2 => some (cmd, rest2)

/-- The test `strncmp(cmd, lit, strlen(lit)) == 0`. -/
def starts_with (cmd : List Nat) (lit : String) : Bool :=
  cmd.take (cstr lit).length == cstr lit

/-- The white-space characters `sscanf` skips before a `%d`. -/
def is_space (c : Nat) : Bool := decide (c = 32 ∨ (9 ≤ c ∧ c ≤ 13))

/-- The decimal digits. -/
def is_digit (c : Nat) : Bool := decide (48 ≤ c ∧ c ≤ 57)

/-- The value of a string of decimal digits. -/
def digits_value (ds : List Nat) : Nat := ds.foldl (fun a c => a * 10 + (c - 48)) 0

/-- The digits part of a `%d` conversion: `none` without a digit. -/
def scan_digits (negative : Bool) (s : List Nat) : Option (Int × List Nat) :=
  if s.takeWhile is_digit = [] then none
  else some (if negative then -(digits_value (s.takeWhile is_digit) : Int)
             else (digits_value (s.takeWhile is_digit) : Int), s.dropWhile is_digit)

/-- The conversion `%d` of `sscanf`: white space, an optional sign, digits.  The value is not
reduced to the range of `int`. -/
def scan_d (s : List Nat) : Option (Int × List Nat) :=
  match s.dropWhile is_space with
  | 45 :: t => scan_digits true t
  | 43 :: t => scan_digits false t
  | t => scan_digits false t

/-- The directives `/%d`, `n` times: the values converted before the first failure. -/
def scan_fields : Nat → List Nat → List Int
  | 0, _ => []
  | n + 1, s =>
    match s with
    | 47 :: t =>
      match scan_d t with
      | some (v, rest) => v :: scan_fields n rest
      | none => []
    | _ => []

/-- The variables the `sscanf` call assigns: `data_fd` (initially `0`) and the fields of
`status`, whose initial content `status0` is indeterminate in C.  A field without a converted
value keeps its initial content. -/
def assign_fields (vals : List Int) (status0 : client_status_t) : Int × client_status_t :=
  (vals.getD 0 0,
   { view := { x := vals.getD 1 status0.view.x, y := vals.getD 2 status0.view.y },
     frame_top := { x := vals.getD 3 status0.frame_top.x, y := vals.getD 4 status0.frame_top.y },
     frame_bottom :=
       { x := vals.getD 5 status0.frame_bottom.x, y := vals.getD 6 status0.frame_bottom.y },
     resolution := vals.getD 7 status0.resolution,
     mask := match vals[8]? with
       | some m => (m % 2 ^ 32).toNat
       | none => status0.mask })

/-- The two `sscanf` calls of the control branch: eight fields after `POST /control`, nine
after `GET /control`. -/
def parse_control (cmd : List Nat) (status0 : client_status_t) : Int × client_status_t :=
  if starts_with cmd "POST /control" = true then assign_fields (scan_fields 8 (cmd.drop 13)) status0
  else assign_fields (scan_fields 9 (cmd.drop 12)) status0

/-- The test `data_fd > 0 && data_fd < config->n_streams && config->streams[data_fd] != NULL`,
giving the stream when it holds. -/
def lookup_stream (config : amalgamate_config_t) (data_fd : Int) : Option stream_t :=
  if 0 < data_fd ∧ data_fd < config.streams.length then (config.streams.getD data_fd.toNat none)
  else none

/-- A write of `bytes` to `config->streams[fd]`. -/
def stream_write (config : amalgamate_config_t) (fd : Nat) (bytes : List Nat) :
    amalgamate_config_t :=
  match config.streams.getD fd none with
  | some s => { config with streams := config.streams.set fd (some { s with wr := s.wr ++ bytes }) }
  | none => config

/-- The reads of `client_handle_request` on `config->streams[fd]`: what is left unread. -/
def stream_consume (config : amalgamate_config_t) (fd : Nat) (rest : List Nat) :
    amalgamate_config_t :=
  match config.streams.getD fd none with
  | some s => { config with streams := config.streams.set fd (some { s with rd := rest }) }
  | none => config

/-- The reply header of the data branch. -/
def data_reply_header : List Nat :=
  cstr ("HTTP/1.1 200 OK\r\nCache-Control: no-cache\r\n"
    ++ "Expires: Thu, 01 Dec 1994 16:00:00 GMT\r\nConnection: Keep-Alive\r\n"
    ++ "Content-Type: text/plain; charset=x-user-defined\r\nTransfer-Encoding: chunked\r\n"
    ++ "Content-Type: multipart/x-mixed-replace;boundary=\"loldongz101\"\r\n\r\n")

/-- The block `sprintf` builds in `buf` in the data branch, for the connection `fd`. -/
def data_reply_body (fd : Nat) : List Nat :=
  cstr "--loldongz101\r\nContent-type: text/plain\n\n" ++ fmt_d fd
    ++ cstr "\n--loldongz101\r\n"

/-- The reply header of the page branch, for a file of `size` bytes. -/
def html_reply_header (size : Nat) : List Nat :=
  cstr "HTTP/1.1 200 OK\r\nCache-Control: no-cache\r\nConnection: keep-alive\r\nContent-Length: "
    ++ fmt_d size
    ++ cstr "\r\nExpires: Thu, 01 Dec 1994 16:00:00 GMT\r\nContent-Type: text/html\r\n\r\n"

/-- The loop `while(!feof(in))` of the page branch: each round calls `fgets` into `linebuf` and
writes the C string in `linebuf`; a round in which `fgets` stores nothing leaves `linebuf` as
it was.  The first argument bounds the number of rounds. -/
def html_loop : Nat → List Nat → Bool → List Nat → FILE → FILE
  | 0, _, _, _, out => out
  | k + 1, rest, eof, linebuf, out =>
    if eof = true then out
    else
      let r := fgets 4095 rest
      let linebuf2 := if r.line = [] then linebuf else r.line
      html_loop k r.rest r.eof linebuf2 (out ++ c_string linebuf2)

/-- The reply to a control request whose data channel exists. -/
def control_reply_found : List Nat :=
  cstr ("HTTP/1.1 200 OK\r\nCache-Control: no-cache\r\nConnection: keep-alive\r\n"
    ++ "Expires: Thu, 01 Dec 1994 16:00:00 GMT\r\nContent-Length: 3\r\n"
    ++ "Content-Type: text/plain\r\n\r\n") ++ cstr "0\r\n"

/-- The reply to a control request whose data channel does not exist. -/
def control_reply_missing : List Nat :=
  cstr ("HTTP/1.1 200 OK\r\nCache-Control: no-cache\r\nConnection: Keep-Alive\r\n"
    ++ "Expires: Thu, 01 Dec 1994 16:00:00 GMT\r\nContent-Length: 3\r\n"
    ++ "Content-Type: text/plain\r\n\r\n") ++ cstr "0\r\n"

/-- The reply to any other request line. -/
def not_found_reply : List Nat :=
  cstr ("HTTP/1.1 404 Not Found\r\nCache-Control: no-cache\r\nConnection: close\r\n"
    ++ "Expires: Thu, 01 Dec 1994 16:00:00 GMT\r\nContent-Length: 3\r\n"
    ++ "Content-Type: text/plain\r\n\r\n") ++ cstr "0\r\n"

/-- The control branch of `client_handle_request`, after the parse: acknowledge on
`streams[fd]`, then run `dataset_amalgamate2` into `streams[data_fd]` when that stream exists.
-/
def handle_control (config : amalgamate_config_t) (fd : Nat) (dataset : dataset_t)
    (groups : group_list_t) (data_fd : Int) (status : client_status_t) : amalgamate_config_t :=
  match lookup_stream config data_fd with
  | some _ =>
    let c1 := stream_write config fd control_reply_found
    match c1.streams.getD data_fd.toNat none with
    | some tgt =>
      let r := dataset_amalgamate2 status dataset groups c1.buf tgt.wr
      { c1 with buf := r.2,
                streams := c1.streams.set data_fd.toNat (some { tgt with wr := r.1 }) }
    | none => c1
  | none => stream_write config fd control_reply_missing

/-- The dispatch of `client_handle_request` on the request line `cmd`: the return value and
the configuration afterwards. -/
def dispatch (config : amalgamate_config_t) (fd : Nat) (dataset : dataset_t)
    (groups : group_list_t) (status0 : client_status_t) (cmd : List Nat) :
    Nat × amalgamate_config_t :=
  if starts_with cmd "POST /data" = true ∨ starts_with cmd "GET /data" = true then
    (1, stream_write (stream_write config fd data_reply_header) fd
      (fmt_x (data_reply_body fd).length ++ cstr "\r\n" ++ data_reply_body fd ++ cstr "\r\n"))
  else if starts_with cmd "GET /control/html" = true then
    match config.htmlfile with
    | some file =>
      (1, stream_write (stream_write config fd (html_reply_header file.length)) fd
        (html_loop (file.length + 1) file false [] []))
    | none => (1, config)
  else if starts_with cmd "POST /control" = true ∨ starts_with cmd "GET /control" = true then
    (1, handle_control config fd dataset groups (parse_control cmd status0).1
      (parse_control cmd status0).2)
  else
    (0, stream_write config fd not_found_reply)

/-- The function `client_handle_request`.  `status0` is the indeterminate initial content of
the local `status`.  The lines written to `stderr` are left out. -/
def client_handle_request (config : amalgamate_config_t) (fd : Nat) (dataset : dataset_t)
    (groups : group_list_t) (status0 : client_status_t) : Nat × amalgamate_config_t :=
  match config.streams.getD fd none with
  | none => (0, config)
  | some s =>
    match read_request s.rd with
    | none => (0, stream_consume config fd [])
    | some (cmd, rest) => dispatch (stream_consume config fd rest) fd dataset groups status0 cmd

/-- The request `GET /control/1/0/0/0/0/10/10/0/1` followed by a blank line: target 1, view
`(0,0)`, resolution `0`. -/
def zero_view_request : List Nat := cstr "GET /control/1/0/0/0/0/10/10/0/1\r\n\r\n"

/-- A configuration with a data channel on connection 1 and a control connection 2 that has
`zero_view_request` pending; the buffer is the one `main` creates. -/
def zero_view_config : amalgamate_config_t :=
  { htmlfile := none, buf := buffer_create 16384 4096,
    streams := [none, some { rd := [], wr := [] }, some { rd := zero_view_request, wr := [] }] }

/-- The view request `zero_view_request` parses to, over any initial content. -/
def zero_view_status : client_status_t :=
  { view := { x := 0, y := 0 }, frame_top := { x := 0, y := 0 },
    frame_bottom := { x := 10, y := 10 }, mask := 1, resolution := 0 }

/-! ## Buffers that stage the same bytes -/

/-- Two buffers with the same capacity, threshold and `used`, whose blocks agree on the staged
bytes (the first `used` bytes). -/
def same_staged (b c : buffer_t) : Prop :=
  b.size = c.size ∧ b.used = c.used ∧ b.flush_size = c.flush_size
    ∧ b.buf.take b.used = c.buf.take c.used

/-- The loop of `buffer_append` calls of `dataset_amalgamate2`, one call for each record. -/
def append_records (s : FILE × buffer_t) (rs : List record_t) : FILE × buffer_t :=
  rs.foldl (fun s r => buffer_append s.1 s.2 (record_bytes r) ((r.len * 2 + 4) * 2)) s

/-- The request line starts with one of the four prefixes `client_handle_request` serves:
`POST /data`, `GET /data`, `POST /control`, `GET /control`. -/
def served_line (cmd : List Nat) : Prop :=
  starts_with cmd "POST /data" = true ∨ starts_with cmd "GET /data" = true
    ∨ starts_with cmd "POST /control" = true ∨ starts_with cmd "GET /control" = true

instance (cmd : List Nat) : Decidable (served_line cmd) :=
  inferInstanceAs (Decidable (starts_with cmd "POST /data" = true
    ∨ starts_with cmd "GET /data" = true
    ∨ starts_with cmd "POST /control" = true ∨ starts_with cmd "GET /control" = true))

/-- The end of the stream is hit while the request line or one of the lines up to the blank
line is read, whatever the bound on the number of rounds. -/
def hits_eof (input : List Nat) : Prop :=
  read_line input = none
    ∨ ∃ cmd rest, read_line input = some (cmd, rest) ∧ ∀ k, skip_headers k cmd rest = none

/-- The branch of `main` that serves the readable connection `i`: when
`client_handle_request` returns 0 the stream is closed and its slot is set to `NULL`. -/
def main_handle_client (config : amalgamate_config_t) (i : Nat) (dataset : dataset_t)
    (groups : group_list_t) (status0 : client_status_t) : amalgamate_config_t :=
  if (client_handle_request config i dataset groups status0).1 = 0 then
    { (client_handle_request config i dataset groups status0).2 with
      streams := (client_handle_request config i dataset groups status0).2.streams.set i none }
  else (client_handle_request config i dataset groups status0).2

/-- A control connection 2 with `zero_view_request` pending, and no data channel. -/
def no_target_config : amalgamate_config_t :=
  { htmlfile := none, buf := buffer_create 16384 4096,
    streams := [none, none, some { rd := zero_view_request, wr := [] }] }

/-- A connection 1 with the request line `GET /nothing` pending. -/
def unknown_path_config : amalgamate_config_t :=
  { htmlfile := none, buf := buffer_create 16384 4096,
    streams := [none, some { rd := cstr "GET /nothing\r\n\r\n", wr := [] }] }

/-- A connection 3 with a data-channel request pending. -/
def data_request_config : amalgamate_config_t :=
  { htmlfile := none, buf := buffer_create 16384 4096,
    streams := [none, none, none, some { rd := cstr "GET /data HTTP/1.1\r\n\r\n", wr := [] }] }

/-- A trajectory whose samples all map out of the view of `view10`. -/
def outside_trajectory : trajectory_t :=
  { samples := [{ x := 50, y := 50 }, { x := -3, y := 4 }, { x := 12, y := 1 },
      { x := 5, y := 30 }] }

/-- The value of a string of ASCII decimal digits. -/
def decimal_value (ds : List Nat) : Nat := ds.foldl (fun a c => a * 10 + (c - 48)) 0

/-- The screen coordinate as the specification words it:
`floor(floor((v - top) / factor) / resolution) * resolution`. -/
def spec_coord (v top : Int) (factor : ℚ) (resolution : Int) : Int :=
  ⌊((⌊((v - top : Int) : ℚ) / factor⌋ : Int) : ℚ) / (resolution : ℚ)⌋ * resolution

/-- A view request that maps the frame `(0,0)`-`(20,20)` to the view `(10,10)`: both factors
are `2`. -/
def view_half : client_status_t :=
  { view := { x := 10, y := 10 }, frame_top := { x := 0, y := 0 },
    frame_bottom := { x := 20, y := 20 }, mask := 1, resolution := 1 }

/-- The bytes `buffer_send` writes for one chunk with the given payload. -/
def chunk_bytes (payload : List Nat) : List Nat :=
  fmt_x (payload.length + header.length + footer.length) ++ cstr "\r\n" ++ header ++ payload
    ++ footer ++ cstr "\r\n"

/-- A sequence of `buffer_append` calls, one for each block, each with the length of its
block. -/
def append_blocks (s : FILE × buffer_t) (blocks : List (List Nat)) : FILE × buffer_t :=
  blocks.foldl (fun s blk => buffer_append s.1 s.2 blk blk.length) s

/-- The state of stream and buffer after some appends: the stream holds one chunk for each
group of blocks in `groups`, and the buffer stages the blocks of `pend`. -/
def blocks_inv (size flush_size : Nat) (s : FILE × buffer_t) (groups : List (List (List Nat)))
    (pend : List (List Nat)) : Prop :=
  s.1 = groups.flatMap (fun grp => chunk_bytes grp.flatten)
    ∧ s.2.buf.take s.2.used = pend.flatten ∧ s.2.used = pend.flatten.length
    ∧ s.2.size = size ∧ s.2.flush_size = flush_size ∧ s.2.used ≤ size
    ∧ ∀ grp ∈ groups, grp.flatten.length ≤ size

/-! ## The first chunk of a call -/

/-- The payload of the first chunk of a chunked output, read back per the framing: the
hexadecimal length up to the first CR, CRLF, the part header, then the payload, whose length
is the announced length less header and footer. -/
def first_chunk_payload (out : List Nat) : Option (List Nat) :=
  if header.length + footer.length ≤ hex_value (out.takeWhile fun c => c ≠ 13)
      ∧ (((out.dropWhile fun c => c ≠ 13).drop 2).take header.length) = header then
    some ((((out.dropWhile fun c => c ≠ 13).drop 2).drop header.length).take
      (hex_value (out.takeWhile fun c => c ≠ 13) - header.length - footer.length))
  else none

/-- The state of stream and buffer in the course of `dataset_amalgamate2`: the stream holds
one chunk for each group of blocks in `groups`, and the buffer stages the blocks of `pend`. -/
def chunks_inv (s : FILE × buffer_t) (groups : List (List (List Nat)))
    (pend : List (List Nat)) : Prop :=
  s.1 = groups.flatMap (fun grp => chunk_bytes grp.flatten)
    ∧ s.2.buf.take s.2.used = pend.flatten ∧ s.2.used = pend.flatten.length

/-- The first group of blocks, sent or still staged, starts with the block `c`. -/
def starts_with_block (c : List Nat) (groups : List (List (List Nat)))
    (pend : List (List Nat)) : Prop :=
  ∃ g rest, groups ++ [pend] = (c :: g) :: rest

/-- A buffer with a zero flush threshold, freshly created. -/
def zero_threshold_buffer : buffer_t := buffer_create 16 0

/-! ## Runs as `int` points -/

/-- The colour triple `&colors[(g % (sizeof(colors) / 24)) * 3]` copied into the record of
group `g`. -/
def group_colour (g : Nat) : List Nat := (colors.drop ((g % (sizeof_colors / 24)) * 3)).take 3

/-- The locals of the sample loop with the run kept as the `int` points handed to the stores
into `samples`, before the cast `(uint16_t)`: `run` is the run being built, `runs` the runs
emitted so far. -/
structure run_t where
  last_p : point_t
  in_ : Bool
  run : List point_t
  runs : List (List point_t)
deriving DecidableEq

/-- The locals at the start of each trajectory, with no point in the run. -/
def run_init : run_t :=
  { last_p := { x := INT_MIN, y := INT_MIN }, in_ := false, run := [], runs := [] }

/-- The body of the sample loop of `dataset_amalgamate2` on the `int` points: the same tests
and the same stores as `clip_step`, each store keeping the `int` point itself. -/
def run_step (status : client_status_t) (d : run_t) (new_p : point_t) : run_t :=
  if in_view status new_p then
    let d1 := if d.last_p.x ≠ INT_MIN ∧ d.in_ = false then { d with run := d.run ++ [d.last_p] }
              else d
    let d2 := if new_p.x ≠ d.last_p.x ∨ new_p.y ≠ d.last_p.y then
                { d1 with run := d1.run ++ [new_p] }
              else d1
    { d2 with in_ := true, last_p := new_p }
  else
    let d1 := if d.in_ = true then { d with runs := d.runs ++ [d.run ++ [new_p]], run := [] }
              else d
    { d1 with in_ := false, last_p := new_p }

/-- The runs of one trajectory as lists of `int` points: those closed in the sample loop, then
the one still open at the end. -/
def trajectory_runs (status : client_status_t) (tr : trajectory_t) : List (List point_t) :=
  if ((mapped_samples status tr).foldl (run_step status) run_init).in_ = true then
    ((mapped_samples status tr).foldl (run_step status) run_init).runs
      ++ [((mapped_samples status tr).foldl (run_step status) run_init).run]
  else ((mapped_samples status tr).foldl (run_step status) run_init).runs

/-- The record emitted for a run of `int` points of group `g`: the counter `len` has wrapped at
`65536` and every point went through the cast. -/
def record_of_run (g : Nat) (run : List point_t) : record_t :=
  make_record g (run.length % 65536) (run.map stored_point)

/-- A stored point read as a point with `int` coordinates. -/
def point_of_units (q : Nat × Nat) : point_t := { x := (q.1 : Int), y := (q.2 : Int) }

/-- The locals of `clip_step` and of `run_step` agree: `samples` holds the cast of `run`, `len`
its length modulo `65536`, and the records emitted are those of the runs emitted. -/
def run_sim (g : Nat) (c : clip_t) (d : run_t) : Prop :=
  c.last_p = d.last_p ∧ c.in_ = d.in_ ∧ c.samples = d.run.map stored_point
    ∧ c.len = d.run.length % 65536 ∧ c.emitted = d.runs.map (record_of_run g)

/-! ## The call of `dataset_amalgamate2` by the control branch -/

/-- No division of `dataset_amalgamate2` has a zero divisor for this view request: the view
sizes are not zero (divisors of the two factors), the factors are not zero (divisors of the
sample mapping) and the resolution is not zero (divisor of the quantization). -/
def divisions_defined (status : client_status_t) : Prop :=
  status.view.x ≠ 0 ∧ status.view.y ≠ 0 ∧ status.resolution ≠ 0
    ∧ status.frame_bottom.x ≠ status.frame_top.x ∧ status.frame_bottom.y ≠ status.frame_top.y

instance (status : client_status_t) : Decidable (divisions_defined status) :=
  inferInstanceAs (Decidable (status.view.x ≠ 0 ∧ status.view.y ≠ 0 ∧ status.resolution ≠ 0
    ∧ status.frame_bottom.x ≠ status.frame_top.x
    ∧ status.frame_bottom.y ≠ status.frame_top.y))

/-- The arguments of the call
`dataset_amalgamate2(&status, dataset, groups, config->buf, config->streams[data_fd])` of line
474: the view request, the shared buffer and the target stream as they are at the call. -/
structure amalgamate_call_t where
  status : client_status_t
  buf : buffer_t
  data_fd : Nat
  stream : stream_t
deriving DecidableEq

/-- The call the control branch makes for the parsed `data_fd` and `status`: when the lookup
of line 466 succeeds, the acknowledgement is written to `streams[fd]` and the call follows;
`none` when the lookup fails and no call is made.  No other test stands before the call. -/
def control_call (config : amalgamate_config_t) (fd : Nat) (data_fd : Int)
    (status : client_status_t) : Option amalgamate_call_t :=
  match lookup_stream config data_fd with
  | some _ =>
    match (stream_write config fd control_reply_found).streams.getD data_fd.toNat none with
    | some tgt =>
      some { status := status, buf := (stream_write config fd control_reply_found).buf,
             data_fd := data_fd.toNat, stream := tgt }
    | none => none
  | none => none

/-- A control request with non-zero view, factors and resolution for the data channel 1. -/
def plain_request : List Nat := cstr "GET /control/1/10/10/0/0/10/10/1/1\r\n\r\n"

/-- A configuration with a data channel on connection 1 and a control connection 2 that has
`plain_request` pending. -/
def plain_config : amalgamate_config_t :=
  { htmlfile := none, buf := buffer_create 16384 4096,
    streams := [none, some { rd := [], wr := [] }, some { rd := plain_request, wr := [] }] }

/-! ## Theorems -/

/-! ### Hexadecimal chunk length -/

theorem hex_digit_value_digitChar : ∀ m, m < 16 → hex_digit_value (Nat.digitChar m).toNat = m := by
  decide

theorem hex_fold_toDigitsCore (fuel : Nat) : ∀ (n : Nat) (ds : List Char), n < fuel →
    hex_fold 0 ((Nat.toDigitsCore 16 fuel n ds).map Char.toNat)
      = hex_fold n (ds.map Char.toNat) := by
  induction fuel with
  | zero => intro n ds h; omega
  | succ f ih =>
    intro n ds h
    have hd := hex_digit_value_digitChar (n % 16) (Nat.mod_lt _ (by decide))
    simp only [Nat.toDigitsCore]
    by_cases h0 : n / 16 = 0
    · simp only [h0, if_true, List.map_cons, hex_fold, List.foldl_cons, hd]
      have : n % 16 = n := by omega
      simp [this]
    · simp only [h0, if_false]
      rw [ih (n / 16) _ (by omega)]
      simp only [List.map_cons, hex_fold, List.foldl_cons, hd]
      have : n / 16 * 16 + n % 16 = n := by omega
      rw [this]

theorem hex_value_fmt_x (n : Nat) : hex_value (fmt_x n) = n := by
  unfold hex_value fmt_x Nat.toDigits
  rw [hex_fold_toDigitsCore (n + 1) n [] (by omega)]
  simp [hex_fold]

/-! ### Buffer -/

/-- C7: for a buffer whose block holds its `used` staged bytes, `buffer_send` writes the
hexadecimal chunk length, CRLF, the part header, exactly the staged bytes, the footer
`--loldongz101` CRLF and a final CRLF; the announced length is the number of bytes of header,
staged bytes and footer together; afterwards `used = 0` while `size` and `flush_size` are
unchanged. -/
theorem C7_buffer_send_chunk (stream : FILE) (b : buffer_t) (h : b.used ≤ b.buf.length) :
    (buffer_send stream b).1
        = stream ++ fmt_x (header.length + b.used + footer.length) ++ cstr "\r\n"
            ++ header ++ b.buf.take b.used ++ (cstr "--loldongz101" ++ cstr "\r\n")
            ++ cstr "\r\n"
      ∧ (b.buf.take b.used).length = b.used
      ∧ hex_value (fmt_x (header.length + b.used + footer.length))
          = (header ++ b.buf.take b.used ++ (cstr "--loldongz101" ++ cstr "\r\n")).length
      ∧ (buffer_send stream b).2.used = 0
      ∧ (buffer_send stream b).2.size = b.size
      ∧ (buffer_send stream b).2.flush_size = b.flush_size := by
  have hlen : (b.buf.take b.used).length = b.used := by
    rw [List.length_take]; omega
  have hfoot : cstr "--loldongz101" ++ cstr "\r\n" = footer := by decide
  refine ⟨?_, hlen, ?_, rfl, rfl, rfl⟩
  · rw [hfoot]
    simp only [buffer_send]
    have : b.used + header.length + footer.length = header.length + b.used + footer.length := by
      omega
    rw [this]
  · rw [hex_value_fmt_x, hfoot]
    simp only [List.length_append, hlen]

/-- C7, at the buffer that holds the four bytes `CLRS`. -/
theorem C7_buffer_send_chunk_witness :
    (buffer_send [] { buf := [67, 76, 82, 83], size := 16384, used := 4, flush_size := 4096 }).1
        = [] ++ fmt_x (header.length + 4 + footer.length) ++ cstr "\r\n"
            ++ header ++ [67, 76, 82, 83] ++ (cstr "--loldongz101" ++ cstr "\r\n")
            ++ cstr "\r\n" :=
  (C7_buffer_send_chunk []
    { buf := [67, 76, 82, 83], size := 16384, used := 4, flush_size := 4096 } (by decide)).1

/-- C4 fails on the code: on the buffer of `main` (`size = 16384`), appending the record of a
run of 4095 points (`(2 * 4095 + 4) * 2 = 16388` bytes) leaves `used = 16388 > size`. -/
theorem C4_buffer_append_overflow :
    (buffer_append [] (buffer_create 16384 4096)
        (record_bytes (make_record 0 4095 (List.replicate 4095 (0, 0))))
        ((4095 * 2 + 4) * 2)).2.used = 16388
      ∧ (buffer_append [] (buffer_create 16384 4096)
        (record_bytes (make_record 0 4095 (List.replicate 4095 (0, 0))))
        ((4095 * 2 + 4) * 2)).2.size = 16384 := by
  constructor <;> rfl

/-! ### The clipper keeps every interior point in view -/

theorem uint16_le (v : Int) (h : 0 ≤ v) : ((uint16 v : Nat) : Int) ≤ v := by
  unfold uint16
  rw [Int.toNat_of_nonneg (Int.emod_nonneg _ (by decide))]
  have h1 := Int.emod_lt_of_pos v (show (0 : Int) < 65536 by decide)
  have h2 := Int.emod_nonneg v (show (65536 : Int) ≠ 0 by decide)
  omega

theorem stored_in_view_of_in_view (status : client_status_t) (p : point_t)
    (h : in_view status p = true) : stored_in_view status (stored_point p) = true := by
  simp only [in_view, Bool.and_eq_true, decide_eq_true_eq] at h
  obtain ⟨⟨⟨hx0, hx⟩, hy0⟩, hy⟩ := h
  have h1 := uint16_le p.x hx0
  have h2 := uint16_le p.y hy0
  simp only [stored_in_view, stored_point, Bool.and_eq_true, decide_eq_true_eq]
  refine ⟨⟨⟨by omega, by omega⟩, by omega⟩, by omega⟩

theorem tail_in_view_append (status : client_status_t) (l : List (Nat × Nat)) (q : Nat × Nat)
    (hl : tail_in_view status l) (hq : stored_in_view status q = true) :
    tail_in_view status (l ++ [q]) := by
  intro i p hi hp
  rw [List.getElem?_append] at hp
  split at hp
  · exact hl i p hi hp
  · cases hidx : i - l.length with
    | zero => rw [hidx] at hp; simp at hp; rw [← hp]; exact hq
    | succ k => rw [hidx] at hp; simp at hp

theorem interior_take_append (status : client_status_t) (l : List (Nat × Nat)) (q : Nat × Nat)
    (n : Nat) (hl : tail_in_view status l) :
    interior_in_view status ((l ++ [q]).take n) := by
  intro i p hi hlen hp
  rw [List.length_take, List.length_append, List.length_singleton] at hlen
  rw [List.getElem?_take_of_lt (by omega), List.getElem?_append_left (by omega)] at hp
  exact hl i p hi hp

theorem interior_take (status : client_status_t) (l : List (Nat × Nat)) (n : Nat)
    (hl : tail_in_view status l) : interior_in_view status (l.take n) := by
  intro i p hi hlen hp
  rw [List.length_take] at hlen
  rw [List.getElem?_take_of_lt (by omega)] at hp
  exact hl i p hi hp

theorem tail_in_view_nil (status : client_status_t) : tail_in_view status [] := by
  intro i p _ hp
  simp at hp

theorem tail_in_view_singleton (status : client_status_t) (q : Nat × Nat) :
    tail_in_view status [q] := by
  intro i p hi hp
  cases i with
  | zero => omega
  | succ k => simp at hp

theorem view_inv_init (status : client_status_t) : view_inv status clip_init :=
  ⟨tail_in_view_nil status, fun _ => rfl, by simp [clip_init]⟩

theorem view_inv_step (status : client_status_t) (g : Nat) (c : clip_t) (new_p : point_t)
    (h : view_inv status c) : view_inv status (clip_step status g c new_p) := by
  obtain ⟨ht, he, hr⟩ := h
  unfold clip_step
  by_cases hv : in_view status new_p = true
  · have hq := stored_in_view_of_in_view status new_p hv
    rw [if_pos hv]
    by_cases ha : c.last_p.x ≠ INT_MIN ∧ c.in_ = false
    · have hs := he ha.2
      by_cases hn : new_p.x ≠ c.last_p.x ∨ new_p.y ≠ c.last_p.y
      · simp only [if_pos ha, if_pos hn, push_point, hs, List.nil_append]
        refine ⟨?_, by simp, hr⟩
        exact tail_in_view_append status [stored_point c.last_p] _
          (tail_in_view_singleton status _) hq
      · simp only [if_pos ha, if_neg hn, push_point, hs, List.nil_append]
        exact ⟨tail_in_view_singleton status _, by simp, hr⟩
    · by_cases hn : new_p.x ≠ c.last_p.x ∨ new_p.y ≠ c.last_p.y
      · simp only [if_neg ha, if_pos hn, push_point]
        exact ⟨tail_in_view_append status _ _ ht hq, by simp, hr⟩
      · simp only [if_neg ha, if_neg hn]
        exact ⟨ht, by simp, hr⟩
  · rw [if_neg hv]
    by_cases hi : c.in_ = true
    · simp only [if_pos hi, push_point, make_record]
      refine ⟨tail_in_view_nil status, fun _ => rfl, ?_⟩
      intro r hmem
      rw [List.mem_append, List.mem_singleton] at hmem
      rcases hmem with hmem | hmem
      · exact hr r hmem
      · rw [hmem]
        exact interior_take_append status _ _ _ ht
    · simp only [if_neg hi]
      have hf : c.in_ = false := by simpa using hi
      exact ⟨ht, fun _ => he hf, hr⟩

theorem view_inv_foldl (status : client_status_t) (g : Nat) (ms : List point_t) :
    ∀ c, view_inv status c → view_inv status (ms.foldl (sample_step status g) c) := by
  induction ms with
  | nil => intro c h; exact h
  | cons m ms ih =>
    intro c h
    exact ih _ (view_inv_step status g c (new_point status m) h)

theorem trajectory_records_interior (status : client_status_t) (g : Nat) (tr : trajectory_t) :
    ∀ r ∈ trajectory_records status g tr, interior_in_view status r.points := by
  have h := view_inv_foldl status g (tr.samples.drop 1) clip_init (view_inv_init status)
  obtain ⟨ht, _, hr⟩ := h
  intro r hmem
  unfold trajectory_records at hmem
  simp only [sample_loop] at hmem
  split at hmem
  · rw [List.mem_append, List.mem_singleton] at hmem
    rcases hmem with hmem | hmem
    · exact hr r hmem
    · rw [hmem]
      exact interior_take status _ _ ht
  · exact hr r hmem

/-- Every record of `dataset_amalgamate2` is a record of one trajectory of one group. -/
theorem amalgamate_records_mem (status : client_status_t) (dataset : dataset_t)
    (groups : group_list_t) (r : record_t) (h : r ∈ amalgamate_records status dataset groups) :
    ∃ g tr, g < groups.groups.length ∧ r ∈ trajectory_records status g tr := by
  unfold amalgamate_records at h
  rw [List.mem_flatMap] at h
  obtain ⟨g, hg, hmem⟩ := h
  rw [List.mem_range] at hg
  split at hmem
  · simp at hmem
  · split at hmem
    · unfold group_records at hmem
      rw [List.mem_flatMap] at hmem
      obtain ⟨t, _, hmem⟩ := hmem
      exact ⟨g, _, hg, hmem⟩
    · simp at hmem

/-- C1, amended: in every record `dataset_amalgamate2` emits, every stored point that is neither
the first nor the last point of the record lies in `[0, view.x) × [0, view.y)`. -/
theorem C1_interior_points_in_view (status : client_status_t) (dataset : dataset_t)
    (groups : group_list_t) (r : record_t) (hr : r ∈ amalgamate_records status dataset groups)
    (i : Nat) (p : Nat × Nat) (hi : 0 < i) (hlast : i + 1 < r.points.length)
    (hp : r.points[i]? = some p) : stored_in_view status p = true := by
  obtain ⟨g, tr, _, hmem⟩ := amalgamate_records_mem status dataset groups r hr
  exact trajectory_records_interior status g tr r hmem i p hi hlast hp

/-! ### De-duplication -/

theorem adjacent_all_iff {α : Type} (R : α → α → Bool) (l : List α) :
    adjacent_all R l = true ↔ List.Chain' (fun a b => R a b = true) l := by
  induction l with
  | nil => simp [adjacent_all]
  | cons a l ih =>
    cases l with
    | nil => simp [adjacent_all]
    | cons b l =>
      rw [adjacent_all, Bool.and_eq_true, ih, List.chain'_cons]

theorem no_adjacent_equal_iff (l : List (Nat × Nat)) :
    no_adjacent_equal l ↔ chain_distinct l := by
  unfold no_adjacent_equal chain_distinct
  rw [adjacent_all_iff]
  simp only [decide_eq_true_eq]

theorem casts_distinct_iff (ms : List point_t) :
    casts_distinct ms ↔ List.Chain' cast_distinct ms := by
  unfold casts_distinct
  rw [adjacent_all_iff]
  simp only [decide_eq_true_eq]
  rfl

theorem point_eq_of_coords (p q : point_t) (hx : p.x = q.x) (hy : p.y = q.y) : p = q := by
  cases p; cases q; simp_all

theorem chain_distinct_snoc (l : List (Nat × Nat)) (a b : Nat × Nat)
    (hl : chain_distinct l) (hlast : l.getLast? = some a) (hab : a ≠ b) :
    chain_distinct (l ++ [b]) := by
  unfold chain_distinct at *
  rw [List.chain'_append]
  refine ⟨hl, List.chain'_singleton b, ?_⟩
  intro x hx y hy
  rw [hlast] at hx
  simp only [Option.mem_def, Option.some.injEq] at hx
  simp only [List.head?_cons, Option.mem_def, Option.some.injEq] at hy
  rw [← hx, ← hy]
  exact hab

theorem dedup_inv_step (status : client_status_t) (g : Nat) (c : clip_t) (new_p : point_t)
    (h : dedup_inv status c)
    (hd : c.in_ = true ∨ c.last_p.x ≠ INT_MIN → cast_distinct c.last_p new_p) :
    dedup_inv status (clip_step status g c new_p) := by
  obtain ⟨hc, hl, hvw, he, hr⟩ := h
  unfold clip_step
  by_cases hv : in_view status new_p = true
  · rw [if_pos hv]
    by_cases ha : c.last_p.x ≠ INT_MIN ∧ c.in_ = false
    · have hs := he ha.2
      have hcd := hd (Or.inr ha.1)
      by_cases hn : new_p.x ≠ c.last_p.x ∨ new_p.y ≠ c.last_p.y
      · simp only [if_pos ha, if_pos hn, push_point, hs, List.nil_append]
        have hne : c.last_p ≠ new_p := by
          intro heq
          rw [heq] at hn
          simp at hn
        refine ⟨?_, fun _ => by simp, fun _ => hv, by simp, hr⟩
        exact chain_distinct_snoc [stored_point c.last_p] _ _
          (List.chain'_singleton _) (by simp) (hcd hne)
      · simp only [if_pos ha, if_neg hn, push_point, hs, List.nil_append]
        have heq : new_p = c.last_p := by
          apply point_eq_of_coords <;> by_contra hcon
          · exact hn (Or.inl hcon)
          · exact hn (Or.inr hcon)
        refine ⟨List.chain'_singleton _, fun _ => by simp [heq], fun _ => hv, by simp, hr⟩
    · by_cases hn : new_p.x ≠ c.last_p.x ∨ new_p.y ≠ c.last_p.y
      · simp only [if_neg ha, if_pos hn, push_point]
        have hne : c.last_p ≠ new_p := by
          intro heq
          rw [heq] at hn
          simp at hn
        refine ⟨?_, fun _ => by simp, fun _ => hv, by simp, hr⟩
        by_cases hi : c.in_ = true
        · exact chain_distinct_snoc _ _ _ hc (hl hi) (hd (Or.inl hi) hne)
        · have hs := he (by simpa using hi)
          rw [hs]
          exact List.chain'_singleton _
      · simp only [if_neg ha, if_neg hn]
        have heq : new_p = c.last_p := by
          apply point_eq_of_coords <;> by_contra hcon
          · exact hn (Or.inl hcon)
          · exact hn (Or.inr hcon)
        have hi : c.in_ = true := by
          by_contra hi
          have hf : c.in_ = false := by simpa using hi
          have hmin : c.last_p.x = INT_MIN := by
            by_contra hcon
            exact ha ⟨hcon, hf⟩
          rw [heq] at hv
          simp only [in_view, Bool.and_eq_true, decide_eq_true_eq, hmin, INT_MIN] at hv
          omega
        exact ⟨hc, fun _ => by rw [heq]; exact hl hi, fun _ => hv, by simp, hr⟩
  · rw [if_neg hv]
    by_cases hi : c.in_ = true
    · simp only [if_pos hi, push_point, make_record]
      have hne : c.last_p ≠ new_p := by
        intro heq
        rw [← heq] at hv
        exact hv (hvw hi)
      refine ⟨List.chain'_nil, by simp, by simp, fun _ => rfl, ?_⟩
      intro r hmem
      rw [List.mem_append, List.mem_singleton] at hmem
      rcases hmem with hmem | hmem
      · exact hr r hmem
      · rw [hmem]
        exact List.Chain'.take
          (chain_distinct_snoc _ _ _ hc (hl hi) (hd (Or.inl hi) hne)) _
    · simp only [if_neg hi]
      have hf : c.in_ = false := by simpa using hi
      exact ⟨hc, by simp, by simp, fun _ => he hf, hr⟩

theorem clip_step_last_p (status : client_status_t) (g : Nat) (c : clip_t) (new_p : point_t) :
    (clip_step status g c new_p).last_p = new_p := by
  unfold clip_step
  split <;> rfl

theorem dedup_inv_foldl (status : client_status_t) (g : Nat) (ms : List point_t) :
    ∀ c, dedup_inv status c → List.Chain' cast_distinct ms →
      (∀ m ∈ ms.head?, c.in_ = true ∨ c.last_p.x ≠ INT_MIN → cast_distinct c.last_p m) →
      dedup_inv status (ms.foldl (clip_step status g) c) := by
  induction ms with
  | nil => intro c h _ _; exact h
  | cons m ms ih =>
    intro c h hch hhead
    rw [List.foldl_cons]
    apply ih _ (dedup_inv_step status g c m h (hhead m (by simp))) (List.Chain'.tail hch)
    intro m2 hm2 _
    rw [clip_step_last_p]
    cases ms with
    | nil => simp at hm2
    | cons m3 rest =>
      simp only [List.head?_cons, Option.mem_def, Option.some.injEq] at hm2
      rw [← hm2]
      exact (List.chain'_cons.mp hch).1

theorem dedup_inv_init (status : client_status_t) : dedup_inv status clip_init :=
  ⟨List.chain'_nil, by simp [clip_init], by simp [clip_init], fun _ => rfl,
    by simp [clip_init]⟩

theorem sample_loop_eq (status : client_status_t) (g : Nat) (tr : trajectory_t) :
    sample_loop status g tr = (mapped_samples status tr).foldl (clip_step status g) clip_init := by
  unfold sample_loop mapped_samples
  rw [List.foldl_map]
  rfl

theorem sample_loop_upto_eq (status : client_status_t) (g : Nat) (tr : trajectory_t) (s : Nat) :
    sample_loop_upto status g tr s
      = ((mapped_samples status tr).take s).foldl (clip_step status g) clip_init := by
  unfold sample_loop_upto mapped_samples
  rw [← List.map_take, List.foldl_map, List.drop_take]
  rfl

/-- C2, amended: when no two consecutive values of `new_p` that differ as `int` points are
stored as the same pair of 16-bit units, no two adjacent points of `samples` are equal at any
moment of the sample loop, nor in any emitted record. -/
theorem C2_no_adjacent_duplicates (status : client_status_t) (g : Nat) (tr : trajectory_t)
    (h : casts_distinct (mapped_samples status tr)) :
    (∀ s, no_adjacent_equal (sample_loop_upto status g tr s).samples)
      ∧ ∀ r ∈ trajectory_records status g tr, no_adjacent_equal r.points := by
  rw [casts_distinct_iff] at h
  simp only [no_adjacent_equal_iff]
  constructor
  · intro s
    rw [sample_loop_upto_eq]
    exact (dedup_inv_foldl status g _ clip_init (dedup_inv_init status) (h.take s)
      (by intro m _ hc; simp [clip_init] at hc)).1
  · have hinv := dedup_inv_foldl status g _ clip_init (dedup_inv_init status) h
      (by intro m _ hc; simp [clip_init] at hc)
    rw [← sample_loop_eq status g tr] at hinv
    obtain ⟨hc, _, _, _, hr⟩ := hinv
    intro r hmem
    simp only [trajectory_records] at hmem
    split at hmem
    · rw [List.mem_append, List.mem_singleton] at hmem
      rcases hmem with hmem | hmem
      · exact hr r hmem
      · rw [hmem]
        exact List.Chain'.take hc _
    · exact hr r hmem

/-! ### Entry anchoring -/

theorem clip_step_out (status : client_status_t) (g : Nat) (c : clip_t) (new_p : point_t)
    (hinv : c.in_ = false → c.samples = [])
    (hv : in_view status new_p = false) :
    (clip_step status g c new_p).in_ = false ∧ (clip_step status g c new_p).samples = []
      ∧ (clip_step status g c new_p).last_p = new_p := by
  unfold clip_step
  rw [if_neg (by simp [hv])]
  by_cases hi : c.in_ = true
  · simp only [if_pos hi, push_point, and_self]
  · simp only [if_neg hi, true_and, and_true]
    exact hinv (by simpa using hi)

theorem clip_step_enter (status : client_status_t) (g : Nat) (c : clip_t) (new_p : point_t)
    (hin : c.in_ = false) (hs : c.samples = []) (hmin : c.last_p.x ≠ INT_MIN)
    (hout : in_view status c.last_p = false) (hv : in_view status new_p = true) :
    (clip_step status g c new_p).samples = [stored_point c.last_p, stored_point new_p]
      ∧ (clip_step status g c new_p).in_ = true := by
  have hn : new_p.x ≠ c.last_p.x ∨ new_p.y ≠ c.last_p.y := by
    by_contra hcon
    have heq : new_p = c.last_p := by
      apply point_eq_of_coords <;> by_contra hc2
      · exact hcon (Or.inl hc2)
      · exact hcon (Or.inr hc2)
    rw [heq, hout] at hv
    exact Bool.false_ne_true hv
  unfold clip_step
  rw [if_pos hv]
  simp only [if_pos (And.intro hmin hin), if_pos hn, push_point, hs, List.nil_append,
    List.singleton_append, and_self]

theorem take_succ_succ_drop_one {α : Type} (l : List α) (s : Nat) (a b : α) (hs : 2 ≤ s)
    (ha : l[s - 1]? = some a) (hb : l[s]? = some b) :
    (l.take (s + 1)).drop 1 = (l.take (s - 1)).drop 1 ++ [a, b] := by
  obtain ⟨k, rfl⟩ : ∃ k, s = k + 2 := ⟨s - 2, by omega⟩
  have h1 : k + 2 - 1 = k + 1 := by omega
  rw [h1] at ha ⊢
  have hlen : k + 1 < l.length := by
    by_contra hcon
    rw [List.getElem?_eq_none (by omega)] at ha
    exact Option.noConfusion ha
  rw [List.take_succ, hb, List.take_succ, ha]
  simp only [Option.toList_some, List.append_assoc, List.singleton_append]
  rw [List.drop_append_of_le_length]
  rw [List.length_take]
  omega

/-- C3, amended: when sample `s - 1` (`s ≥ 2`) maps out of view with an x other than
`INT_MIN` and sample `s` maps in view, then once sample `s` is handled `samples` holds exactly
the 16-bit cast of the mapped sample `s - 1` followed by the 16-bit cast of the mapped sample
`s`, and the run is open. -/
theorem C3_entry_anchor (status : client_status_t) (g : Nat) (tr : trajectory_t) (s : Nat)
    (a b : point_t) (hs : 2 ≤ s) (ha : tr.samples[s - 1]? = some a)
    (hb : tr.samples[s]? = some b) (hout : in_view status (new_point status a) = false)
    (hin : in_view status (new_point status b) = true)
    (hmin : (new_point status a).x ≠ INT_MIN) :
    (sample_loop_upto status g tr s).samples
        = [stored_point (new_point status a), stored_point (new_point status b)]
      ∧ (sample_loop_upto status g tr s).in_ = true := by
  unfold sample_loop_upto
  rw [take_succ_succ_drop_one tr.samples s a b hs ha hb, List.foldl_append]
  have hinv := view_inv_foldl status g ((tr.samples.take (s - 1)).drop 1) clip_init
    (view_inv_init status)
  simp only [List.foldl_cons, List.foldl_nil, sample_step]
  obtain ⟨h1, h2, h3⟩ := clip_step_out status g _ (new_point status a) hinv.2.1 hout
  have hmin2 := hmin
  have hout2 := hout
  rw [← h3] at hmin2 hout2
  have := clip_step_enter status g _ (new_point status b) h1 h2 hmin2 hout2 hin
  rw [h3] at this
  exact this

/-! ### Concrete runs -/

/-- C1 as stated fails: with non-zero view and resolution the emitted records start with the
entry anchor `(100,100)` and end with the exit point `(200,200)`, both outside
`[0,10) × [0,10)`. -/
theorem C1_counterexample :
    view10.view.x ≠ 0 ∧ view10.view.y ≠ 0 ∧ view10.resolution ≠ 0
      ∧ amalgamate_records view10 enter_exit_dataset pair_group
          = [{ rgb := [180, 0, 0], len := 3, points := [(100, 100), (5, 5), (200, 200)] },
             { rgb := [180, 0, 0], len := 3, points := [(100, 100), (5, 5), (200, 200)] }]
      ∧ ¬ ∀ r ∈ amalgamate_records view10 enter_exit_dataset pair_group,
            ∀ p ∈ r.points, stored_in_view view10 p = true := by
  decide!

/-- C1, amended, at the middle point of the record of `enter_exit_trajectory`. -/
theorem C1_interior_points_in_view_witness : stored_in_view view10 (5, 5) = true :=
  C1_interior_points_in_view view10 enter_exit_dataset pair_group
    { rgb := [180, 0, 0], len := 3, points := [(100, 100), (5, 5), (200, 200)] }
    (by decide!) 1 (5, 5) (by decide) (by decide) (by decide)

/-- C2 as stated fails: the anchor `(65541,5)` and the in-view point `(5,5)` are stored as the
same pair of units, so the run holds `(5,5)` twice in a row. -/
theorem C2_counterexample :
    (sample_loop_upto view10 0 wrap_trajectory 2).samples = [(5, 5), (5, 5)]
      ∧ ¬ no_adjacent_equal (sample_loop_upto view10 0 wrap_trajectory 2).samples
      ∧ ¬ ∀ r ∈ trajectory_records view10 0 wrap_trajectory, no_adjacent_equal r.points := by
  decide!

/-- C2, amended, at `enter_exit_trajectory`. -/
theorem C2_no_adjacent_duplicates_witness :
    (∀ s, no_adjacent_equal (sample_loop_upto view10 0 enter_exit_trajectory s).samples)
      ∧ ∀ r ∈ trajectory_records view10 0 enter_exit_trajectory, no_adjacent_equal r.points :=
  C2_no_adjacent_duplicates view10 0 enter_exit_trajectory (by decide!)

/-- C3 as stated fails: sample 1 maps to `(-5,-5)` out of view and sample 2 to `(5,5)` in view,
yet the run opened at sample 2 starts with `(65531,65531)`, not with `(-5,-5)`. -/
theorem C3_counterexample :
    negative_trajectory.samples[1]? = some { x := -5, y := -5 }
      ∧ negative_trajectory.samples[2]? = some { x := 5, y := 5 }
      ∧ new_point view10 { x := -5, y := -5 } = { x := -5, y := -5 }
      ∧ new_point view10 { x := 5, y := 5 } = { x := 5, y := 5 }
      ∧ in_view view10 (new_point view10 { x := -5, y := -5 }) = false
      ∧ in_view view10 (new_point view10 { x := 5, y := 5 }) = true
      ∧ (sample_loop_upto view10 0 negative_trajectory 2).samples = [(65531, 65531), (5, 5)]
      ∧ (sample_loop_upto view10 0 negative_trajectory 2).samples.map
            (fun p => ((p.1 : Int), (p.2 : Int))) ≠ [(-5, -5), (5, 5)] := by
  decide!

/-- C3, amended, at sample 2 of `enter_exit_trajectory`. -/
theorem C3_entry_anchor_witness :
    (sample_loop_upto view10 0 enter_exit_trajectory 2).samples
        = [stored_point (new_point view10 { x := 100, y := 100 }),
           stored_point (new_point view10 { x := 5, y := 5 })]
      ∧ (sample_loop_upto view10 0 enter_exit_trajectory 2).in_ = true :=
  C3_entry_anchor view10 0 enter_exit_trajectory 2 { x := 100, y := 100 } { x := 5, y := 5 }
    (by decide) (by decide) (by decide) (by decide!) (by decide!) (by decide!)

/-- C8 as stated fails: the only run of scenario 2 is not `(0,0)`, `(5,5)` and one more point;
sample 0 is never mapped. -/
theorem C8_counterexample :
    ¬ ∃ e, (trajectory_records view10 0 scenario2_trajectory).map (fun r => r.points)
        = [[(0, 0), (5, 5), e]] := by
  have h : (trajectory_records view10 0 scenario2_trajectory).map (fun r => r.points)
      = [[(5, 5), (100, 100)]] := by decide!
  rw [h]
  rintro ⟨e, he⟩
  simp at he

/-- Scenario 2 evaluated: the clipper yields exactly one record, which holds the mapped second
sample `(5,5)` followed by the mapped third sample `(100,100)`, which is out of view. -/
theorem C8_scenario2_run :
    new_point view10 { x := 5, y := 5 } = { x := 5, y := 5 }
      ∧ new_point view10 { x := 100, y := 100 } = { x := 100, y := 100 }
      ∧ in_view view10 { x := 100, y := 100 } = false
      ∧ trajectory_records view10 0 scenario2_trajectory
          = [{ rgb := [180, 0, 0], len := 2, points := [(5, 5), (100, 100)] }] := by
  decide!

/-! ### Colour of a record -/

theorem make_record_rgb (g len : Nat) (samples : List (Nat × Nat)) :
    (make_record g len samples).rgb = palette_entry (g % 4) := rfl

/-- C5 fails on the code: `sizeof(colors) / 24` is `4`, not `16`, so the records of group 4
carry `colors[0..2]` (red, `180,0,0`) instead of palette entry 4 (cyan, `0,180,180`). -/
theorem C5_group4_colour :
    sizeof_colors / 24 = 4
      ∧ (amalgamate_records view10_group4 enter_exit_dataset five_groups).map (fun r => r.rgb)
          = [[180, 0, 0], [180, 0, 0]]
      ∧ palette_entry (4 % 16) = [0, 180, 180] := by
  decide!

/-! ### Record layout and round trip -/

theorem units_of_bytes_le16 (us : List Nat) (h : ∀ u ∈ us, u < 65536) :
    units_of_bytes (us.flatMap le16) = us := by
  induction us with
  | nil => rfl
  | cons u us ih =>
    have hu := h u (by simp)
    have ht : ∀ v ∈ us, v < 65536 := fun v hv => h v (by simp [hv])
    rw [List.flatMap_cons]
    show units_of_bytes (u % 256 :: (u / 256 % 256) :: us.flatMap le16) = u :: us
    rw [units_of_bytes, ih ht]
    congr 1
    omega

theorem points_of_units_flat (pts : List (Nat × Nat)) :
    points_of_units (pts.flatMap fun p => [p.1, p.2]) = pts := by
  induction pts with
  | nil => rfl
  | cons p pts ih =>
    rw [List.flatMap_cons]
    show points_of_units (p.1 :: p.2 :: pts.flatMap fun p => [p.1, p.2]) = p :: pts
    rw [points_of_units, ih]

theorem length_flat_points (pts : List (Nat × Nat)) :
    (pts.flatMap fun p => [p.1, p.2]).length = pts.length * 2 := by
  induction pts with
  | nil => rfl
  | cons p pts ih =>
    simp only [List.flatMap_cons, List.length_append, List.length_cons, List.length_nil, ih]
    omega

theorem length_flat_le16 (us : List Nat) : (us.flatMap le16).length = us.length * 2 := by
  induction us with
  | nil => rfl
  | cons u us ih =>
    simp only [List.flatMap_cons, List.length_append, List.length_cons, List.length_nil, ih, le16]
    omega

theorem record_units_lt (r : record_t) (h : record_ok r) : ∀ u ∈ record_units r, u < 65536 := by
  obtain ⟨_, hrgb, hlen, _, hpts⟩ := h
  intro u hu
  simp only [record_units, List.mem_append, List.mem_singleton, List.mem_flatMap] at hu
  rcases hu with (hu | hu) | ⟨p, hp, hu⟩
  · exact hrgb u hu
  · rw [hu]; exact hlen
  · have := hpts p hp
    simp only [List.mem_cons, List.mem_singleton, List.not_mem_nil, or_false] at hu
    rcases hu with hu | hu <;> rw [hu]
    · exact this.1
    · exact this.2

theorem record_round_trip (r : record_t) (h : record_ok r) :
    units_of_bytes (record_bytes r) = r.rgb ++ [r.len] ++ r.points.flatMap (fun p => [p.1, p.2])
      ∧ (record_bytes r).length = (r.len * 2 + 4) * 2
      ∧ decode_record (record_bytes r) = some (r.rgb, r.points.length, r.points) := by
  have hu : units_of_bytes (record_bytes r) = record_units r :=
    units_of_bytes_le16 _ (record_units_lt r h)
  obtain ⟨h3, _, _, hlen, _⟩ := h
  refine ⟨hu, ?_, ?_⟩
  · simp only [record_bytes, length_flat_le16, record_units, List.length_append,
      List.length_singleton, length_flat_points, h3, hlen]
    omega
  · unfold decode_record
    rw [hu]
    obtain ⟨rgb, len, points⟩ := r
    simp only at h3 hlen ⊢
    match rgb, h3 with
    | [a, b, c], _ =>
      simp only [record_units, List.cons_append, List.nil_append, length_flat_points,
        points_of_units_flat, hlen, le_refl, if_true, List.take_length]

theorem palette_entry_ok (g : Nat) :
    (palette_entry (g % 4)).length = 3 ∧ ∀ u ∈ palette_entry (g % 4), u < 65536 := by
  have h : g % 4 < 4 := Nat.mod_lt _ (by decide)
  generalize g % 4 = k at h
  interval_cases k <;> decide

theorem make_record_ok (g len : Nat) (samples : List (Nat × Nat))
    (hlen : len = samples.length % 65536) (hs : ∀ p ∈ samples, p.1 < 65536 ∧ p.2 < 65536) :
    record_ok (make_record g len samples) := by
  have hmod : samples.length % 65536 < 65536 := Nat.mod_lt _ (by decide)
  have hle : samples.length % 65536 ≤ samples.length := Nat.mod_le _ _
  refine ⟨(palette_entry_ok g).1, (palette_entry_ok g).2, by simp only [make_record]; omega, ?_,
    ?_⟩
  · simp only [make_record, List.length_take]
    omega
  · intro p hp
    exact hs p (List.mem_of_mem_take hp)

theorem uint16_lt (v : Int) : uint16 v < 65536 := by
  unfold uint16
  have h1 := Int.emod_lt_of_pos v (show (0 : Int) < 65536 by decide)
  have h2 := Int.emod_nonneg v (show (65536 : Int) ≠ 0 by decide)
  omega

theorem encode_inv_push (c : clip_t) (p : point_t) (h : encode_inv c) :
    encode_inv (push_point c p) := by
  obtain ⟨hl, hs, hr⟩ := h
  refine ⟨?_, ?_, hr⟩
  · simp only [push_point, List.length_append, List.length_singleton, hl]
    omega
  · intro q hq
    simp only [push_point, List.mem_append, List.mem_singleton] at hq
    rcases hq with hq | hq
    · exact hs q hq
    · rw [hq]
      exact ⟨uint16_lt _, uint16_lt _⟩

theorem encode_inv_step (status : client_status_t) (g : Nat) (c : clip_t) (new_p : point_t)
    (h : encode_inv c) : encode_inv (clip_step status g c new_p) := by
  unfold clip_step
  by_cases hv : in_view status new_p = true
  · rw [if_pos hv]
    have h1 : encode_inv
        (if c.last_p.x ≠ INT_MIN ∧ c.in_ = false then push_point c c.last_p else c) := by
      split
      · exact encode_inv_push c _ h
      · exact h
    have h2 : encode_inv
        (if new_p.x ≠ c.last_p.x ∨ new_p.y ≠ c.last_p.y then
          push_point (if c.last_p.x ≠ INT_MIN ∧ c.in_ = false then push_point c c.last_p else c)
            new_p
         else (if c.last_p.x ≠ INT_MIN ∧ c.in_ = false then push_point c c.last_p else c)) := by
      split
      · exact encode_inv_push _ _ h1
      · exact h1
    exact h2
  · rw [if_neg hv]
    by_cases hi : c.in_ = true
    · simp only [if_pos hi]
      obtain ⟨hl, hs, hr⟩ := encode_inv_push c new_p h
      refine ⟨rfl, by simp, ?_⟩
      intro r hmem
      rw [List.mem_append, List.mem_singleton] at hmem
      rcases hmem with hmem | hmem
      · exact hr r hmem
      · rw [hmem]
        exact make_record_ok g _ _ hl hs
    · simp only [if_neg hi]
      exact h

theorem encode_inv_foldl (status : client_status_t) (g : Nat) (ms : List point_t) :
    ∀ c, encode_inv c → encode_inv (ms.foldl (sample_step status g) c) := by
  induction ms with
  | nil => intro c h; exact h
  | cons m ms ih =>
    intro c h
    exact ih _ (encode_inv_step status g c (new_point status m) h)

theorem trajectory_records_ok (status : client_status_t) (g : Nat) (tr : trajectory_t) :
    ∀ r ∈ trajectory_records status g tr, record_ok r := by
  have h := encode_inv_foldl status g (tr.samples.drop 1) clip_init
    ⟨rfl, by simp [clip_init], by simp [clip_init]⟩
  obtain ⟨hl, hs, hr⟩ := h
  intro r hmem
  simp only [trajectory_records, sample_loop] at hmem
  split at hmem
  · rw [List.mem_append, List.mem_singleton] at hmem
    rcases hmem with hmem | hmem
    · exact hr r hmem
    · rw [hmem]
      exact make_record_ok g _ _ hl hs
  · exact hr r hmem

/-- Every record `dataset_amalgamate2` emits has, in 16-bit units, the layout
`[R,G,B][count][x0,y0,...]`, is handed to `buffer_append` with its exact byte length, and
decodes per that layout to its colour triple, the number of its points and its ordered point
list. -/
theorem amalgamate_record_round_trip (status : client_status_t) (dataset : dataset_t)
    (groups : group_list_t) (r : record_t) (hr : r ∈ amalgamate_records status dataset groups) :
    r.rgb.length = 3
      ∧ units_of_bytes (record_bytes r)
          = r.rgb ++ [r.len] ++ r.points.flatMap (fun p => [p.1, p.2])
      ∧ r.len = r.points.length
      ∧ (record_bytes r).length = (r.len * 2 + 4) * 2
      ∧ decode_record (record_bytes r) = some (r.rgb, r.points.length, r.points) := by
  obtain ⟨g, tr, _, hmem⟩ := amalgamate_records_mem status dataset groups r hr
  have hok := trajectory_records_ok status g tr r hmem
  have hrt := record_round_trip r hok
  exact ⟨hok.1, hrt.1, hok.2.2.2.1, hrt.2.1, hrt.2.2⟩

/-! ### Orchestration -/

theorem range_map_getD {α : Type} (l : List α) (d : α) :
    (List.range l.length).map (fun i => (i, l.getD i d)) = l.enum := by
  apply List.ext_getElem?
  intro n
  rw [List.getElem?_map, List.getElem?_enum]
  by_cases h : n < l.length
  · rw [List.getElem?_range h, List.getElem?_eq_getElem h, Option.map_some', Option.map_some',
      List.getD_eq_getElem l d h]
  · rw [List.getElem?_eq_none (by rw [List.length_range]; omega),
      List.getElem?_eq_none (by omega)]
    rfl

theorem range_min_map_getD {α : Type} (l : List α) (d : α) (k : Nat) :
    (List.range (min l.length k)).map (fun i => l.getD i d) = l.take k := by
  apply List.ext_getElem?
  intro n
  rw [List.getElem?_map, List.getElem?_take]
  by_cases h : n < min l.length k
  · have h1 : n < l.length := by omega
    have h2 : n < k := by omega
    rw [List.getElem?_range h, if_pos h2, List.getElem?_eq_getElem h1, Option.map_some',
      List.getD_eq_getElem l d h1]
  · rw [List.getElem?_eq_none (by rw [List.length_range]; omega)]
    by_cases h2 : n < k
    · rw [if_pos h2, List.getElem?_eq_none (by omega)]
      rfl
    · rw [if_neg h2]
      rfl

theorem flatMap_filter {α β : Type} (p : α → Bool) (f : α → List β) (l : List α) :
    (l.filter p).flatMap f = l.flatMap fun a => if p a = true then f a else [] := by
  induction l with
  | nil => rfl
  | cons a l ih =>
    rw [List.filter_cons, List.flatMap_cons]
    by_cases h : p a = true
    · rw [if_pos h, if_pos h, List.flatMap_cons, ih]
    · rw [if_neg h, if_neg h, ih, List.nil_append]

theorem flatMap_congr_mem {α β : Type} (f g : α → List β) (l : List α)
    (h : ∀ a ∈ l, f a = g a) : l.flatMap f = l.flatMap g := by
  induction l with
  | nil => rfl
  | cons a l ih =>
    rw [List.flatMap_cons, List.flatMap_cons, h a (by simp),
      ih (fun b hb => h b (by simp [hb]))]

theorem mask_test (mask g : Nat) (hg : g < 32) :
    (mask &&& ((1 <<< g) % 2 ^ 32) = 0) ↔ mask.testBit g = false := by
  have hlt : 2 ^ g < 2 ^ 32 := Nat.pow_lt_pow_right (by decide) hg
  rw [Nat.one_shiftLeft, Nat.mod_eq_of_lt hlt, Nat.and_two_pow]
  have hpos : 0 < 2 ^ g := Nat.pos_pow_of_pos g (by decide)
  cases mask.testBit g
  · simp
  · simp only [Bool.toNat_true, one_mul, Bool.true_eq_false, iff_false]
    omega

theorem group_records_eq (status : client_status_t) (dataset : dataset_t) (g : Nat)
    (grp : group_t) :
    group_records status dataset g grp
      = (grp.trajectories.take 4).flatMap fun idx =>
          trajectory_records status g (dataset.trajectories.getD idx { samples := [] }) := by
  unfold group_records
  rw [← range_min_map_getD grp.trajectories 0 4, List.flatMap_map]

/-- C9: with at most 32 groups, the records `dataset_amalgamate2` emits are, in order, those
the specification describes: over the groups whose mask bit is set and that hold more than one
trajectory, in increasing index order, over the first `min(n_trajectories, 4)` trajectories of
the group, the runs of the clipper. -/
theorem C9_amalgamate_records_eq_spec (status : client_status_t) (dataset : dataset_t)
    (groups : group_list_t) (h : groups.groups.length ≤ 32) :
    amalgamate_records status dataset groups = spec_records status dataset groups := by
  unfold spec_records selected_groups
  rw [flatMap_filter, ← range_map_getD groups.groups { trajectories := [] }, List.flatMap_map]
  unfold amalgamate_records
  apply flatMap_congr_mem
  intro g hg
  rw [List.mem_range] at hg
  have hg32 : g < 32 := by omega
  simp only [Bool.and_eq_true, decide_eq_true_eq]
  by_cases hbit : (groups.groups.getD g { trajectories := [] }).trajectories.length = 0
  · have hnil : (groups.groups.getD g { trajectories := [] }).trajectories = [] :=
      List.length_eq_zero.mp hbit
    rw [group_records_eq, hnil]
    simp
  · by_cases hm : status.mask &&& ((1 <<< g) % 2 ^ 32) = 0
    · rw [if_pos hm, if_neg]
      rw [(mask_test status.mask g hg32).mp hm]
      simp
    · rw [if_neg hm]
      have hb : status.mask.testBit g = true := by
        by_contra hcon
        exact hm ((mask_test status.mask g hg32).mpr (by simpa using hcon))
      by_cases h1 : (groups.groups.getD g { trajectories := [] }).trajectories.length = 1
      · rw [if_neg (not_not.mpr h1), if_neg]
        omega
      · rw [if_pos h1, if_pos ⟨hb, by omega⟩, group_records_eq]

/-- C9, at a list of four groups of which group 1 is a singleton, with mask `13`. -/
theorem C9_amalgamate_records_eq_spec_witness :
    amalgamate_records { view10 with mask := 13 } enter_exit_dataset mixed_groups
      = spec_records { view10 with mask := 13 } enter_exit_dataset mixed_groups :=
  C9_amalgamate_records_eq_spec { view10 with mask := 13 } enter_exit_dataset mixed_groups
    (by decide)

/-! ### Control requests -/

theorem stream_write_buf (config : amalgamate_config_t) (fd : Nat) (bytes : List Nat) :
    (stream_write config fd bytes).buf = config.buf := by
  unfold stream_write
  split <;> rfl

theorem stream_write_length (config : amalgamate_config_t) (fd : Nat) (bytes : List Nat) :
    (stream_write config fd bytes).streams.length = config.streams.length := by
  unfold stream_write
  split
  · simp
  · rfl

theorem stream_write_live (config : amalgamate_config_t) (fd k : Nat) (bytes : List Nat)
    (t : stream_t) (h : config.streams.getD k none = some t) :
    ∃ t2, (stream_write config fd bytes).streams.getD k none = some t2 := by
  unfold stream_write
  split
  · rename_i s hs
    by_cases hk : fd = k
    · subst hk
      have hlt : fd < config.streams.length := by
        by_contra hcon
        rw [List.getD_eq_getElem?_getD, List.getElem?_eq_none (by omega)] at h
        exact Option.noConfusion h
      exact ⟨{ s with wr := s.wr ++ bytes }, by
        simp [List.getD_eq_getElem?_getD, List.getElem?_set, hlt]⟩
    · exact ⟨t, by
        simp only [List.getD_eq_getElem?_getD, List.getElem?_set, if_neg hk]
        simpa [List.getD_eq_getElem?_getD] using h⟩
  · exact ⟨t, h⟩

theorem stream_consume_buf (config : amalgamate_config_t) (fd : Nat) (rest : List Nat) :
    (stream_consume config fd rest).buf = config.buf := by
  unfold stream_consume
  split <;> rfl

theorem stream_consume_length (config : amalgamate_config_t) (fd : Nat) (rest : List Nat) :
    (stream_consume config fd rest).streams.length = config.streams.length := by
  unfold stream_consume
  split
  · simp
  · rfl

theorem stream_consume_live (config : amalgamate_config_t) (fd k : Nat) (rest : List Nat)
    (t : stream_t) (h : config.streams.getD k none = some t) :
    ∃ t2, (stream_consume config fd rest).streams.getD k none = some t2 := by
  unfold stream_consume
  split
  · rename_i s hs
    by_cases hk : fd = k
    · subst hk
      have hlt : fd < config.streams.length := by
        by_contra hcon
        rw [List.getD_eq_getElem?_getD, List.getElem?_eq_none (by omega)] at h
        exact Option.noConfusion h
      exact ⟨{ s with rd := rest }, by
        simp [List.getD_eq_getElem?_getD, List.getElem?_set, hlt]⟩
    · exact ⟨t, by
        simp only [List.getD_eq_getElem?_getD, List.getElem?_set, if_neg hk]
        simpa [List.getD_eq_getElem?_getD] using h⟩
  · exact ⟨t, h⟩

theorem lookup_stream_some (config : amalgamate_config_t) (data_fd : Int) (t : stream_t)
    (h : lookup_stream config data_fd = some t) :
    0 < data_fd ∧ data_fd.toNat < config.streams.length
      ∧ config.streams.getD data_fd.toNat none = some t := by
  unfold lookup_stream at h
  split at h
  · rename_i hc
    exact ⟨hc.1, by omega, h⟩
  · exact Option.noConfusion h

theorem lookup_stream_of_live (config : amalgamate_config_t) (data_fd : Int) (t : stream_t)
    (h0 : 0 < data_fd) (hlt : data_fd.toNat < config.streams.length)
    (h : config.streams.getD data_fd.toNat none = some t) :
    lookup_stream config data_fd = some t := by
  unfold lookup_stream
  rw [if_pos ⟨h0, by omega⟩, h]

theorem handle_control_found (config : amalgamate_config_t) (fd : Nat) (dataset : dataset_t)
    (groups : group_list_t) (data_fd : Int) (status : client_status_t) (t : stream_t)
    (h : lookup_stream config data_fd = some t) :
    ∃ tgt : stream_t,
      (stream_write config fd control_reply_found).streams.getD data_fd.toNat none = some tgt
      ∧ (handle_control config fd dataset groups data_fd status).buf
          = (dataset_amalgamate2 status dataset groups config.buf tgt.wr).2
      ∧ (handle_control config fd dataset groups data_fd status).streams.getD data_fd.toNat none
          = some { tgt with
              wr := (dataset_amalgamate2 status dataset groups config.buf tgt.wr).1 } := by
  obtain ⟨_, hlt, hlive⟩ := lookup_stream_some config data_fd t h
  obtain ⟨tgt, htgt⟩ := stream_write_live config fd data_fd.toNat control_reply_found t hlive
  refine ⟨tgt, htgt, ?_, ?_⟩
  · unfold handle_control
    simp only [h, htgt, stream_write_buf]
  · unfold handle_control
    simp only [h, htgt, stream_write_buf]
    have hl := stream_write_length config fd control_reply_found
    simp [List.getD_eq_getElem?_getD, List.getElem?_set, hl, hlt]

/-! ### The buffer between two requests -/

theorem buffer_send_onto (p stream : FILE) (b : buffer_t) :
    buffer_send (p ++ stream) b = (p ++ (buffer_send stream b).1, (buffer_send stream b).2) := by
  simp only [buffer_send, List.append_assoc]

theorem buffer_append_onto (p stream : FILE) (b : buffer_t) (s : List Nat) (len : Nat) :
    buffer_append (p ++ stream) b s len
      = (p ++ (buffer_append stream b s len).1, (buffer_append stream b s len).2) := by
  unfold buffer_append
  by_cases h : b.used ≥ b.flush_size ∨ b.used + len ≥ b.size
  · simp only [if_pos h, buffer_send_onto]
  · simp only [if_neg h]

theorem append_records_onto (rs : List record_t) :
    ∀ (p stream : FILE) (b : buffer_t),
      append_records (p ++ stream, b) rs
        = (p ++ (append_records (stream, b) rs).1, (append_records (stream, b) rs).2) := by
  induction rs with
  | nil => intro p stream b; rfl
  | cons r rs ih =>
    intro p stream b
    simp only [append_records, List.foldl_cons] at ih ⊢
    rw [buffer_append_onto, ih]

theorem dataset_amalgamate2_eq (status : client_status_t) (dataset : dataset_t)
    (groups : group_list_t) (buf : buffer_t) (stream : FILE) :
    dataset_amalgamate2 status dataset groups buf stream
      = buffer_send
          (append_records (buffer_append stream buf (cstr "CLRS") 4)
            (amalgamate_records status dataset groups)).1
          (append_records (buffer_append stream buf (cstr "CLRS") 4)
            (amalgamate_records status dataset groups)).2 := rfl

theorem dataset_amalgamate2_onto (status : client_status_t) (dataset : dataset_t)
    (groups : group_list_t) (buf : buffer_t) (p stream : FILE) :
    dataset_amalgamate2 status dataset groups buf (p ++ stream)
      = (p ++ (dataset_amalgamate2 status dataset groups buf stream).1,
         (dataset_amalgamate2 status dataset groups buf stream).2) := by
  simp only [dataset_amalgamate2_eq]
  rw [buffer_append_onto, append_records_onto, buffer_send_onto]

theorem same_staged_send (stream : FILE) (b c : buffer_t) (h : same_staged b c) :
    (buffer_send stream b).1 = (buffer_send stream c).1
      ∧ same_staged (buffer_send stream b).2 (buffer_send stream c).2 := by
  obtain ⟨h1, h2, h3, h4⟩ := h
  rw [h2] at h4
  constructor
  · simp only [buffer_send, h2, h4]
  · exact ⟨h1, rfl, h3, by simp [buffer_send]⟩

theorem same_staged_copy (b c : buffer_t) (s : List Nat) (len : Nat) (h : same_staged b c) :
    same_staged
      { b with buf := b.buf.take b.used ++ s.take len, used := b.used + len }
      { c with buf := c.buf.take c.used ++ s.take len, used := c.used + len } := by
  obtain ⟨h1, h2, h3, h4⟩ := h
  rw [h2] at h4
  refine ⟨h1, ?_, h3, ?_⟩
  · simp only [h2]
  · simp only [h2, h4]

theorem same_staged_append (stream : FILE) (b c : buffer_t) (s : List Nat) (len : Nat)
    (h : same_staged b c) :
    (buffer_append stream b s len).1 = (buffer_append stream c s len).1
      ∧ same_staged (buffer_append stream b s len).2 (buffer_append stream c s len).2 := by
  have hs := same_staged_send stream b c h
  unfold buffer_append
  by_cases hc : b.used ≥ b.flush_size ∨ b.used + len ≥ b.size
  · have hc2 : c.used ≥ c.flush_size ∨ c.used + len ≥ c.size := by
      rw [← h.1, ← h.2.1, ← h.2.2.1]; exact hc
    simp only [if_pos hc, if_pos hc2]
    exact ⟨hs.1, same_staged_copy _ _ s len hs.2⟩
  · have hc2 : ¬ (c.used ≥ c.flush_size ∨ c.used + len ≥ c.size) := by
      rw [← h.1, ← h.2.1, ← h.2.2.1]; exact hc
    simp only [if_neg hc, if_neg hc2]
    exact ⟨trivial, same_staged_copy _ _ s len h⟩

theorem same_staged_append_records (rs : List record_t) :
    ∀ (stream : FILE) (b c : buffer_t), same_staged b c →
      (append_records (stream, b) rs).1 = (append_records (stream, c) rs).1
        ∧ same_staged (append_records (stream, b) rs).2 (append_records (stream, c) rs).2 := by
  induction rs with
  | nil => intro stream b c h; exact ⟨rfl, h⟩
  | cons r rs ih =>
    intro stream b c h
    obtain ⟨e1, e2⟩ := same_staged_append stream b c (record_bytes r) ((r.len * 2 + 4) * 2) h
    have hb : append_records (stream, b) (r :: rs)
        = append_records ((buffer_append stream b (record_bytes r) ((r.len * 2 + 4) * 2)).1,
            (buffer_append stream b (record_bytes r) ((r.len * 2 + 4) * 2)).2) rs := rfl
    have hc : append_records (stream, c) (r :: rs)
        = append_records ((buffer_append stream c (record_bytes r) ((r.len * 2 + 4) * 2)).1,
            (buffer_append stream c (record_bytes r) ((r.len * 2 + 4) * 2)).2) rs := rfl
    rw [hb, hc, ← e1]
    exact ih _ _ _ e2

theorem same_staged_amalgamate (status : client_status_t) (dataset : dataset_t)
    (groups : group_list_t) (b c : buffer_t) (stream : FILE) (h : same_staged b c) :
    (dataset_amalgamate2 status dataset groups b stream).1
      = (dataset_amalgamate2 status dataset groups c stream).1 := by
  simp only [dataset_amalgamate2_eq]
  obtain ⟨e1, e2⟩ := same_staged_append stream b c (cstr "CLRS") 4 h
  have hb : append_records (buffer_append stream b (cstr "CLRS") 4)
        (amalgamate_records status dataset groups)
      = append_records ((buffer_append stream b (cstr "CLRS") 4).1,
          (buffer_append stream b (cstr "CLRS") 4).2)
        (amalgamate_records status dataset groups) := rfl
  have hc : append_records (buffer_append stream c (cstr "CLRS") 4)
        (amalgamate_records status dataset groups)
      = append_records ((buffer_append stream c (cstr "CLRS") 4).1,
          (buffer_append stream c (cstr "CLRS") 4).2)
        (amalgamate_records status dataset groups) := rfl
  rw [hb, hc, ← e1]
  obtain ⟨f1, f2⟩ := same_staged_append_records (amalgamate_records status dataset groups)
    (buffer_append stream b (cstr "CLRS") 4).1 _ _ e2
  rw [f1]
  exact (same_staged_send _ _ _ f2).1

theorem buffer_append_size (stream : FILE) (b : buffer_t) (s : List Nat) (len : Nat) :
    (buffer_append stream b s len).2.size = b.size
      ∧ (buffer_append stream b s len).2.flush_size = b.flush_size := by
  unfold buffer_append
  split <;> exact ⟨rfl, rfl⟩

theorem append_records_size (rs : List record_t) :
    ∀ (s : FILE × buffer_t),
      (append_records s rs).2.size = s.2.size
        ∧ (append_records s rs).2.flush_size = s.2.flush_size := by
  induction rs with
  | nil => intro s; exact ⟨rfl, rfl⟩
  | cons r rs ih =>
    intro s
    have hs : append_records s (r :: rs)
        = append_records (buffer_append s.1 s.2 (record_bytes r) ((r.len * 2 + 4) * 2)) rs := rfl
    rw [hs, (ih _).1, (ih _).2]
    exact buffer_append_size _ _ _ _

theorem dataset_amalgamate2_buffer (status : client_status_t) (dataset : dataset_t)
    (groups : group_list_t) (buf : buffer_t) (stream : FILE) :
    (dataset_amalgamate2 status dataset groups buf stream).2.used = 0
      ∧ (dataset_amalgamate2 status dataset groups buf stream).2.size = buf.size
      ∧ (dataset_amalgamate2 status dataset groups buf stream).2.flush_size = buf.flush_size := by
  rw [dataset_amalgamate2_eq]
  refine ⟨rfl, ?_, ?_⟩
  · show (append_records _ _).2.size = _
    rw [(append_records_size _ _).1]
    exact (buffer_append_size _ _ _ _).1
  · show (append_records _ _).2.flush_size = _
    rw [(append_records_size _ _).2]
    exact (buffer_append_size _ _ _ _).2

/-- C11: when `dataset_amalgamate2` returns the shared buffer has `used = 0`; and a second call
that starts from the buffer and the stream the first call left writes, after the bytes of the
first, exactly the bytes it writes from a freshly created buffer of the same capacity and
threshold. -/
theorem C11_requests_independent (status status2 : client_status_t) (dataset : dataset_t)
    (groups : group_list_t) (buf : buffer_t) (stream : FILE) :
    (dataset_amalgamate2 status dataset groups buf stream).2.used = 0
      ∧ (dataset_amalgamate2 status2 dataset groups
            (dataset_amalgamate2 status dataset groups buf stream).2
            (dataset_amalgamate2 status dataset groups buf stream).1).1
          = (dataset_amalgamate2 status dataset groups buf stream).1
              ++ (dataset_amalgamate2 status2 dataset groups
                    (buffer_create buf.size buf.flush_size) []).1 := by
  obtain ⟨hu, hsz, hfl⟩ := dataset_amalgamate2_buffer status dataset groups buf stream
  refine ⟨hu, ?_⟩
  have hp := dataset_amalgamate2_onto status2 dataset groups
    (dataset_amalgamate2 status dataset groups buf stream).2
    (dataset_amalgamate2 status dataset groups buf stream).1 []
  rw [List.append_nil] at hp
  rw [hp]
  have hsame : same_staged (dataset_amalgamate2 status dataset groups buf stream).2
      (buffer_create buf.size buf.flush_size) := by
    refine ⟨hsz, hu, hfl, ?_⟩
    rw [hu]
    simp only [buffer_create, List.take_zero]
  rw [same_staged_amalgamate status2 dataset groups _ _ [] hsame]

/-! ### Streams of the configuration -/

theorem getD_set_streams (l : List (Option stream_t)) (fd k : Nat) (v s : stream_t)
    (h : l.getD fd none = some s) :
    (l.set fd (some v)).getD k none = if k = fd then some v else l.getD k none := by
  have hlt : fd < l.length := by
    by_contra hcon
    rw [List.getD_eq_getElem?_getD, List.getElem?_eq_none (by omega)] at h
    exact Option.noConfusion h
  by_cases hk : k = fd
  · subst hk
    simp [List.getD_eq_getElem?_getD, List.getElem?_set, hlt]
  · have hk2 : ¬ fd = k := fun e => hk e.symm
    simp only [List.getD_eq_getElem?_getD, List.getElem?_set, if_neg hk, if_neg hk2]

theorem stream_write_getD (config : amalgamate_config_t) (fd k : Nat) (bytes : List Nat) :
    (stream_write config fd bytes).streams.getD k none
      = if k = fd then (config.streams.getD fd none).map
          (fun s => { s with wr := s.wr ++ bytes })
        else config.streams.getD k none := by
  unfold stream_write
  split
  · rename_i s hs
    simp only [getD_set_streams _ fd k _ s hs, hs, Option.map_some']
  · rename_i hs
    by_cases hk : k = fd
    · subst hk
      simp only [hs, if_true, Option.map_none']
    · simp only [if_neg hk]

theorem stream_consume_getD (config : amalgamate_config_t) (fd k : Nat) (rest : List Nat) :
    (stream_consume config fd rest).streams.getD k none
      = if k = fd then (config.streams.getD fd none).map (fun s => { s with rd := rest })
        else config.streams.getD k none := by
  unfold stream_consume
  split
  · rename_i s hs
    simp only [getD_set_streams _ fd k _ s hs, hs, Option.map_some']
  · rename_i hs
    by_cases hk : k = fd
    · subst hk
      simp only [hs, if_true, Option.map_none']
    · simp only [if_neg hk]

theorem lookup_stream_consume_none (config : amalgamate_config_t) (fd : Nat) (rest : List Nat)
    (data_fd : Int) (h : lookup_stream config data_fd = none) :
    lookup_stream (stream_consume config fd rest) data_fd = none := by
  unfold lookup_stream at h ⊢
  rw [stream_consume_length]
  split
  · rename_i hc
    rw [if_pos hc] at h
    rw [stream_consume_getD]
    split
    · rename_i hk
      rw [← hk, h]
      rfl
    · exact h
  · rfl

/-- C12: for a control request whose target id the lookup does not resolve,
`client_handle_request` returns 1, appends one acknowledgement to the output of the requesting
connection, and leaves the shared buffer and the stream of every other connection as they
were. -/
theorem C12_unresolved_target (config : amalgamate_config_t) (fd : Nat) (dataset : dataset_t)
    (groups : group_list_t) (status0 : client_status_t) (s : stream_t) (cmd rest : List Nat)
    (hs : config.streams.getD fd none = some s)
    (hreq : read_request s.rd = some (cmd, rest))
    (hdata : ¬ (starts_with cmd "POST /data" = true ∨ starts_with cmd "GET /data" = true))
    (hhtml : ¬ starts_with cmd "GET /control/html" = true)
    (hctl : starts_with cmd "POST /control" = true ∨ starts_with cmd "GET /control" = true)
    (hres : lookup_stream config (parse_control cmd status0).1 = none) :
    (client_handle_request config fd dataset groups status0).1 = 1
      ∧ (client_handle_request config fd dataset groups status0).2.buf = config.buf
      ∧ (client_handle_request config fd dataset groups status0).2.htmlfile = config.htmlfile
      ∧ (client_handle_request config fd dataset groups status0).2.streams.getD fd none
          = some { rd := rest, wr := s.wr ++ control_reply_missing }
      ∧ ∀ k, k ≠ fd →
          (client_handle_request config fd dataset groups status0).2.streams.getD k none
            = config.streams.getD k none := by
  have hres2 := lookup_stream_consume_none config fd rest _ hres
  have hr : client_handle_request config fd dataset groups status0
      = (1, stream_write (stream_consume config fd rest) fd control_reply_missing) := by
    simp only [client_handle_request, hs, hreq, dispatch, if_neg hdata, if_neg hhtml,
      if_pos hctl, handle_control, hres2]
  rw [hr]
  refine ⟨rfl, ?_, ?_, ?_, ?_⟩
  · rw [stream_write_buf, stream_consume_buf]
  · unfold stream_write stream_consume
    split <;> split <;> rfl
  · rw [stream_write_getD, if_pos rfl, stream_consume_getD, if_pos rfl, hs]
    rfl
  · intro k hk
    rw [stream_write_getD, if_neg hk, stream_consume_getD, if_neg hk]

/-- C12, at a control request for the data channel 1 when no such channel exists. -/
theorem C12_unresolved_target_witness :
    (client_handle_request no_target_config 2 enter_exit_dataset pair_group view10).1 = 1
      ∧ (client_handle_request no_target_config 2 enter_exit_dataset pair_group view10).2.buf
          = no_target_config.buf :=
  ⟨(C12_unresolved_target no_target_config 2 enter_exit_dataset pair_group view10
      { rd := zero_view_request, wr := [] } (cstr "GET /control/1/0/0/0/0/10/10/0/1") []
      (by decide) (by decide) (by decide) (by decide) (by decide) (by decide)).1,
   (C12_unresolved_target no_target_config 2 enter_exit_dataset pair_group view10
      { rd := zero_view_request, wr := [] } (cstr "GET /control/1/0/0/0/0/10/10/0/1") []
      (by decide) (by decide) (by decide) (by decide) (by decide) (by decide)).2.1⟩

/-! ### Return value of the handler -/

theorem fgets_rest_le (n : Nat) : ∀ input, (fgets n input).rest.length ≤ input.length := by
  induction n with
  | zero => intro input; simp [fgets]
  | succ n ih =>
    intro input
    cases input with
    | nil => simp [fgets]
    | cons c input =>
      simp only [fgets]
      split
      · simp
      · have := ih input
        simp only [List.length_cons]
        omega

theorem fgets_rest_lt (n : Nat) (input : List Nat) (h : (fgets (n + 1) input).eof = false) :
    (fgets (n + 1) input).rest.length < input.length := by
  cases input with
  | nil => simp [fgets] at h
  | cons c input =>
    simp only [fgets]
    split
    · simp
    · have := fgets_rest_le n input
      simp only [List.length_cons]
      omega

theorem read_line_rest_lt (input b rest : List Nat) (h : read_line input = some (b, rest)) :
    rest.length < input.length := by
  unfold read_line at h
  by_cases he : (fgets 1023 input).eof = true
  · rw [if_pos he] at h
    exact Option.noConfusion h
  · rw [if_neg he] at h
    simp only [Option.some.injEq, Prod.mk.injEq] at h
    rw [← h.2]
    exact fgets_rest_lt 1022 input (by simpa using he)

theorem skip_headers_eof (k : Nat) : ∀ (buf input : List Nat), input.length < k →
    skip_headers k buf input = none → ∀ k2, skip_headers k2 buf input = none := by
  induction k with
  | zero => intro buf input h; omega
  | succ k ih =>
    intro buf input hlen h k2
    cases k2 with
    | zero => rfl
    | succ k2 =>
      unfold skip_headers at h ⊢
      by_cases hb : buf = []
      · simp only [hb, if_true] at h
        exact Option.noConfusion h
      · simp only [hb, if_false] at h ⊢
        cases hr : read_line input with
        | none => rfl
        | some p =>
          obtain ⟨b, rest⟩ := p
          rw [hr] at h
          have hlt := read_line_rest_lt input b rest hr
          exact ih b rest (by omega) h k2

theorem read_request_none_iff (input : List Nat) : read_request input = none ↔ hits_eof input := by
  unfold read_request hits_eof
  cases hr : read_line input with
  | none => simp
  | some p =>
    obtain ⟨cmd, rest⟩ := p
    simp only [false_or, Option.some.injEq, Prod.mk.injEq, reduceCtorEq]
    constructor
    · intro h
      refine ⟨cmd, rest, ⟨rfl, rfl⟩, ?_⟩
      cases hk : skip_headers (rest.length + 1) cmd rest with
      | none => exact skip_headers_eof _ cmd rest (by omega) hk
      | some r => rw [hk] at h; exact Option.noConfusion h
    · rintro ⟨c2, r2, ⟨rfl, rfl⟩, hall⟩
      rw [hall]

theorem dispatch_ret (config : amalgamate_config_t) (fd : Nat) (dataset : dataset_t)
    (groups : group_list_t) (status0 : client_status_t) (cmd : List Nat) :
    ((dispatch config fd dataset groups status0 cmd).1 = 0 ↔ ¬ served_line cmd)
      ∧ (served_line cmd → (dispatch config fd dataset groups status0 cmd).1 = 1)
      ∧ (¬ served_line cmd → (dispatch config fd dataset groups status0 cmd).2
          = stream_write config fd not_found_reply) := by
  have hsub : starts_with cmd "GET /control/html" = true → starts_with cmd "GET /control" = true := by
    intro h
    simp only [starts_with, beq_iff_eq] at h ⊢
    have h2 := congrArg (List.take 12) h
    rw [List.take_take] at h2
    exact h2
  unfold dispatch served_line
  by_cases h1 : starts_with cmd "POST /data" = true ∨ starts_with cmd "GET /data" = true
  · rw [if_pos h1]
    have hk : starts_with cmd "POST /data" = true ∨ starts_with cmd "GET /data" = true
        ∨ starts_with cmd "POST /control" = true ∨ starts_with cmd "GET /control" = true := by
      rcases h1 with h | h
      · exact Or.inl h
      · exact Or.inr (Or.inl h)
    exact ⟨⟨fun h => by simp at h, fun h => absurd hk h⟩, fun _ => rfl, fun h => absurd hk h⟩
  · rw [if_neg h1]
    by_cases h2 : starts_with cmd "GET /control/html" = true
    · rw [if_pos h2]
      have hk : starts_with cmd "POST /data" = true ∨ starts_with cmd "GET /data" = true
          ∨ starts_with cmd "POST /control" = true ∨ starts_with cmd "GET /control" = true :=
        Or.inr (Or.inr (Or.inr (hsub h2)))
      refine ⟨⟨fun h => ?_, fun h => absurd hk h⟩, fun _ => ?_, fun h => absurd hk h⟩
      · split at h <;> simp at h
      · split <;> rfl
    · rw [if_neg h2]
      by_cases h3 : starts_with cmd "POST /control" = true ∨ starts_with cmd "GET /control" = true
      · rw [if_pos h3]
        have hk : starts_with cmd "POST /data" = true ∨ starts_with cmd "GET /data" = true
            ∨ starts_with cmd "POST /control" = true ∨ starts_with cmd "GET /control" = true :=
          Or.inr (Or.inr h3)
        exact ⟨⟨fun h => by simp at h, fun h => absurd hk h⟩, fun _ => rfl, fun h => absurd hk h⟩
      · rw [if_neg h3]
        have hk : ¬ (starts_with cmd "POST /data" = true ∨ starts_with cmd "GET /data" = true
            ∨ starts_with cmd "POST /control" = true ∨ starts_with cmd "GET /control" = true) := by
          intro h
          rcases h with h | h | h
          · exact h1 (Or.inl h)
          · exact h1 (Or.inr h)
          · exact h3 h
        exact ⟨⟨fun _ => hk, fun _ => rfl⟩, fun h => absurd h hk, fun _ => rfl⟩

/-- C13: on a live connection, `client_handle_request` returns 0 exactly when the end of the
stream is hit while the request line or a following header line is read, or the request line
starts with none of `POST /data`, `GET /data`, `POST /control`, `GET /control`; in the latter
case the 404 reply has been written; in every other case it returns 1; and `main` clears the
slot of the connection when 0 is returned. -/
theorem C13_return_value (config : amalgamate_config_t) (fd : Nat) (dataset : dataset_t)
    (groups : group_list_t) (status0 : client_status_t) (s : stream_t)
    (hs : config.streams.getD fd none = some s) :
    ((client_handle_request config fd dataset groups status0).1 = 0
        ↔ hits_eof s.rd ∨ ∃ cmd rest, read_request s.rd = some (cmd, rest) ∧ ¬ served_line cmd)
      ∧ ((client_handle_request config fd dataset groups status0).1 = 0
          ∨ (client_handle_request config fd dataset groups status0).1 = 1)
      ∧ (∀ cmd rest, read_request s.rd = some (cmd, rest) → ¬ served_line cmd →
          (client_handle_request config fd dataset groups status0).2.streams.getD fd none
            = some { rd := rest, wr := s.wr ++ not_found_reply })
      ∧ ((client_handle_request config fd dataset groups status0).1 = 0 →
          (main_handle_client config fd dataset groups status0).streams.getD fd none = none) := by
  have hmain : (client_handle_request config fd dataset groups status0).1 = 0 →
      (main_handle_client config fd dataset groups status0).streams.getD fd none = none := by
    intro h0
    unfold main_handle_client
    rw [if_pos h0]
    simp only [List.getD_eq_getElem?_getD, List.getElem?_set, if_true]
    split <;> rfl
  refine ⟨?_, ?_, ?_, hmain⟩
  · rw [← read_request_none_iff]
    unfold client_handle_request
    simp only [hs]
    cases hr : read_request s.rd with
    | none => simp
    | some p =>
      obtain ⟨cmd, rest⟩ := p
      simp only [(dispatch_ret _ fd dataset groups status0 cmd).1, reduceCtorEq, false_or,
        Option.some.injEq, Prod.mk.injEq]
      constructor
      · intro h; exact ⟨cmd, rest, ⟨rfl, rfl⟩, h⟩
      · rintro ⟨c2, r2, ⟨rfl, rfl⟩, h⟩; exact h
  · unfold client_handle_request
    simp only [hs]
    cases hr : read_request s.rd with
    | none => exact Or.inl rfl
    | some p =>
      obtain ⟨cmd, rest⟩ := p
      by_cases hk : served_line cmd
      · exact Or.inr ((dispatch_ret _ fd dataset groups status0 cmd).2.1 hk)
      · exact Or.inl ((dispatch_ret _ fd dataset groups status0 cmd).1.mpr hk)
  · intro cmd rest hr hk
    unfold client_handle_request
    simp only [hs, hr, (dispatch_ret _ fd dataset groups status0 cmd).2.2 hk]
    rw [stream_write_getD, if_pos rfl, stream_consume_getD, if_pos rfl, hs]
    rfl

/-- C13, at a connection with the request line `GET /nothing` pending. -/
theorem C13_return_value_witness :
    (client_handle_request unknown_path_config 1 enter_exit_dataset pair_group view10).1 = 0 :=
  (C13_return_value unknown_path_config 1 enter_exit_dataset pair_group view10
    { rd := cstr "GET /nothing\r\n\r\n", wr := [] } (by decide)).1.mpr
    (Or.inr ⟨cstr "GET /nothing", [], by decide, by decide⟩)

/-! ### Trajectories out of view -/

theorem clip_step_stay_out (status : client_status_t) (g : Nat) (c : clip_t) (new_p : point_t)
    (hin : c.in_ = false) (hv : in_view status new_p = false) :
    (clip_step status g c new_p).in_ = false
      ∧ (clip_step status g c new_p).emitted = c.emitted := by
  unfold clip_step
  rw [if_neg (by simp [hv]), if_neg (by simp [hin])]
  exact ⟨rfl, rfl⟩

theorem foldl_stay_out (status : client_status_t) (g : Nat) (ms : List point_t) :
    ∀ c, c.in_ = false → (∀ p ∈ ms, in_view status p = false) →
      (ms.foldl (clip_step status g) c).in_ = false
        ∧ (ms.foldl (clip_step status g) c).emitted = c.emitted := by
  induction ms with
  | nil => intro c h _; exact ⟨h, rfl⟩
  | cons m ms ih =>
    intro c h hall
    obtain ⟨h1, h2⟩ := clip_step_stay_out status g c m h (hall m (by simp))
    obtain ⟨h3, h4⟩ := ih _ h1 (fun p hp => hall p (by simp [hp]))
    exact ⟨h3, by rw [List.foldl_cons, h4, h2]⟩

/-- C14: when every value of `new_p` computed for a trajectory is out of view, the clipper
emits no record for the trajectory. -/
theorem C14_outside_no_record (status : client_status_t) (g : Nat) (tr : trajectory_t)
    (h : ∀ p ∈ mapped_samples status tr, in_view status p = false) :
    trajectory_records status g tr = [] := by
  obtain ⟨h1, h2⟩ := foldl_stay_out status g (mapped_samples status tr) clip_init rfl h
  rw [← sample_loop_eq] at h1 h2
  simp only [trajectory_records, h1, Bool.false_eq_true, if_false, h2]
  rfl

/-- C14, at `outside_trajectory`. -/
theorem C14_outside_no_record_witness :
    trajectory_records view10 0 outside_trajectory = [] :=
  C14_outside_no_record view10 0 outside_trajectory (by decide!)

/-! ### Flushing an empty buffer -/

/-- C15: on a buffer with `used = 0`, `buffer_send` leaves the buffer as it was and writes a
chunk with an empty payload, so a second flush leaves the same state as the first; and a
following `buffer_append` of `len < size` bytes stores exactly those bytes from offset 0 on
with `used = len`. -/
theorem C15_flush_empty (stream stream2 : FILE) (b : buffer_t) (s : List Nat) (len : Nat)
    (h : b.used = 0) (hlen : len < b.size) :
    (buffer_send stream b).2 = b
      ∧ (buffer_send stream b).1
          = stream ++ fmt_x (header.length + footer.length) ++ cstr "\r\n" ++ header ++ []
              ++ footer ++ cstr "\r\n"
      ∧ (buffer_send stream2 (buffer_send stream b).2).2 = (buffer_send stream b).2
      ∧ (buffer_append stream2 (buffer_send stream b).2 s len).2.used = len
      ∧ (buffer_append stream2 (buffer_send stream b).2 s len).2.buf = s.take len
      ∧ (buffer_append stream2 (buffer_send stream b).2 s len).2.size = b.size
      ∧ (buffer_append stream2 (buffer_send stream b).2 s len).2.flush_size = b.flush_size
      ∧ (buffer_append stream2 (buffer_send stream b).2 s len).2.used < b.size := by
  have hb : (buffer_send stream b).2 = b := by
    simp only [buffer_send]
    rw [← h]
  have hb2 : ∀ st, (buffer_send st b).2 = b := by
    intro st
    simp only [buffer_send]
    rw [← h]
  have hused : (buffer_append stream2 (buffer_send stream b).2 s len).2.used = len := by
    rw [hb]
    unfold buffer_append
    split
    · simp only [hb2, h, Nat.zero_add]
    · simp only [h, Nat.zero_add]
  refine ⟨hb, ?_, ?_, hused, ?_, ?_, ?_, by rw [hused]; exact hlen⟩
  · simp only [buffer_send, h, List.take_zero, Nat.zero_add]
  · rw [hb, hb2]
  · rw [hb]
    unfold buffer_append
    split
    · simp only [hb2, h, List.take_zero, List.nil_append]
    · simp only [h, List.take_zero, List.nil_append]
  · rw [hb]; exact (buffer_append_size _ _ _ _).1
  · rw [hb]; exact (buffer_append_size _ _ _ _).2

/-- C15, at the buffer `main` creates and the block `CLRS`. -/
theorem C15_flush_empty_witness :
    (buffer_append [] (buffer_send [] (buffer_create 16384 4096)).2 (cstr "CLRS") 4).2.buf
      = (cstr "CLRS").take 4 :=
  (C15_flush_empty [] [] (buffer_create 16384 4096) (cstr "CLRS") 4 (by decide)
    (by decide)).2.2.2.2.1

/-! ### Data channel set-up -/

theorem decimal_fold_toDigitsCore (fuel : Nat) : ∀ (n : Nat) (ds : List Char), n < fuel →
    ((Nat.toDigitsCore 10 fuel n ds).map Char.toNat).foldl (fun a c => a * 10 + (c - 48)) 0
      = (ds.map Char.toNat).foldl (fun a c => a * 10 + (c - 48)) n := by
  induction fuel with
  | zero => intro n ds h; omega
  | succ f ih =>
    intro n ds h
    have hd : ∀ m, m < 10 → (Nat.digitChar m).toNat - 48 = m := by decide
    have hd2 := hd (n % 10) (Nat.mod_lt _ (by decide))
    simp only [Nat.toDigitsCore]
    by_cases h0 : n / 10 = 0
    · simp only [h0, if_true, List.map_cons, List.foldl_cons, hd2]
      have : n % 10 = n := by omega
      simp [this]
    · simp only [h0, if_false]
      rw [ih (n / 10) _ (by omega)]
      simp only [List.map_cons, List.foldl_cons, hd2]
      have : n / 10 * 10 + n % 10 = n := by omega
      rw [this]

theorem decimal_value_fmt_d (n : Nat) : decimal_value (fmt_d n) = n := by
  unfold decimal_value fmt_d Nat.toDigits
  rw [decimal_fold_toDigitsCore (n + 1) n [] (by omega)]
  simp

/-- C16: on a live connection `fd` whose request line starts with `GET /data` or `POST /data`,
`client_handle_request` returns 1 and writes the success header followed by one chunk: the
hexadecimal length of the chunk body, CRLF, the body, CRLF.  The body is the boundary line, the
part header, the decimal text of `fd`, and the line break and boundary line that close the
part; the announced length is the byte length of the body. -/
theorem C16_data_reply (config : amalgamate_config_t) (fd : Nat) (dataset : dataset_t)
    (groups : group_list_t) (status0 : client_status_t) (s : stream_t) (cmd rest : List Nat)
    (hs : config.streams.getD fd none = some s)
    (hreq : read_request s.rd = some (cmd, rest))
    (hdata : starts_with cmd "GET /data" = true ∨ starts_with cmd "POST /data" = true) :
    (client_handle_request config fd dataset groups status0).1 = 1
      ∧ (client_handle_request config fd dataset groups status0).2.streams.getD fd none
          = some { rd := rest,
                   wr := s.wr ++ data_reply_header
                     ++ (fmt_x (data_reply_body fd).length ++ cstr "\r\n" ++ data_reply_body fd
                          ++ cstr "\r\n") }
      ∧ data_reply_body fd
          = cstr "--loldongz101\r\n" ++ cstr "Content-type: text/plain\n\n" ++ fmt_d fd
              ++ cstr "\n--loldongz101\r\n"
      ∧ decimal_value (fmt_d fd) = fd
      ∧ hex_value (fmt_x (data_reply_body fd).length) = (data_reply_body fd).length := by
  have hd : starts_with cmd "POST /data" = true ∨ starts_with cmd "GET /data" = true :=
    hdata.symm
  refine ⟨?_, ?_, ?_, decimal_value_fmt_d fd, hex_value_fmt_x _⟩
  · simp only [client_handle_request, hs, hreq, dispatch, if_pos hd]
  · simp only [client_handle_request, hs, hreq, dispatch, if_pos hd]
    rw [stream_write_getD, if_pos rfl, stream_write_getD, if_pos rfl, stream_consume_getD,
      if_pos rfl, hs]
    simp only [Option.map_some', List.append_assoc]
  · unfold data_reply_body
    have : cstr "--loldongz101\r\nContent-type: text/plain\n\n"
        = cstr "--loldongz101\r\n" ++ cstr "Content-type: text/plain\n\n" := by decide
    rw [this]

/-- C16, at the connection 3. -/
theorem C16_data_reply_witness :
    (client_handle_request data_request_config 3 enter_exit_dataset pair_group view10).1 = 1 :=
  (C16_data_reply data_request_config 3 enter_exit_dataset pair_group view10
    { rd := cstr "GET /data HTTP/1.1\r\n\r\n", wr := [] } (cstr "GET /data HTTP/1.1") []
    (by decide) (by decide) (by decide)).1

/-! ### Closing a run -/

/-- C17 fails on the code: in scenario 2 the run is open at the in-view point `(5,5)` and the
next mapped sample `(100,100)` is out of view; the point appended to close the run is
`(100,100)`, not the last in-view point `(5,5)`. -/
theorem C17_exit_point :
    (sample_loop_upto view10 0 scenario2_trajectory 1).in_ = true
      ∧ (sample_loop_upto view10 0 scenario2_trajectory 1).last_p = { x := 5, y := 5 }
      ∧ (sample_loop_upto view10 0 scenario2_trajectory 1).samples = [(5, 5)]
      ∧ new_point view10 { x := 100, y := 100 } = { x := 100, y := 100 }
      ∧ in_view view10 { x := 100, y := 100 } = false
      ∧ (sample_loop_upto view10 0 scenario2_trajectory 2).emitted
          = [{ rgb := [180, 0, 0], len := 2, points := [(5, 5), (100, 100)] }] := by
  decide!

/-- C8, amended: scenario 2 yields exactly one run, made of the mapped second sample `(5,5)`
followed by one exit point; the first sample `(0,0)` is not part of it. -/
theorem C8_scenario2_one_run :
    ∃ e, (trajectory_records view10 0 scenario2_trajectory).map (fun r => r.points)
      = [[(5, 5), e]] :=
  ⟨(100, 100), by decide!⟩

/-! ### Truncation and floor -/

theorem int_of_double_nonneg (q : ℚ) (h : 0 ≤ q) : int_of_double q = ⌊q⌋ := by
  unfold int_of_double
  rw [Rat.floor_def, Int.tdiv_eq_ediv (Rat.num_nonneg.mpr h) (Int.ofNat_nonneg _)]

theorem new_coord_eq_spec (v top : Int) (factor : ℚ) (resolution : Int)
    (hres : 1 ≤ resolution) (hq : 0 ≤ ((v - top : Int) : ℚ) / factor) :
    new_coord v top factor resolution = spec_coord v top factor resolution := by
  unfold new_coord spec_coord
  rw [int_of_double_nonneg _ hq]
  have hfl : 0 ≤ ⌊((v - top : Int) : ℚ) / factor⌋ := Int.floor_nonneg.mpr hq
  rw [Int.tdiv_eq_ediv hfl (by omega)]
  have hcast : ((resolution : Int) : ℚ) = ((resolution.toNat : ℕ) : ℚ) := by
    have : ((resolution.toNat : ℕ) : Int) = resolution := Int.toNat_of_nonneg (by omega)
    exact_mod_cast this.symm
  rw [hcast, Rat.floor_intCast_div_natCast, Int.toNat_of_nonneg (by omega)]

/-- C18, amended: with resolution at least 1, a coordinate `dataset_amalgamate2` computes
equals `floor(floor((sample - frame_top) / factor) / resolution) * resolution` whenever the
quotient `(sample - frame_top) / factor` is not negative; likewise for y. -/
theorem C18_coord_floor_when_nonneg (status : client_status_t) (smp : point_t)
    (hres : 1 ≤ status.resolution)
    (hx : 0 ≤ ((smp.x - status.frame_top.x : Int) : ℚ) / x_factor status)
    (hy : 0 ≤ ((smp.y - status.frame_top.y : Int) : ℚ) / y_factor status) :
    (new_point status smp).x
        = spec_coord smp.x status.frame_top.x (x_factor status) status.resolution
      ∧ (new_point status smp).y
        = spec_coord smp.y status.frame_top.y (y_factor status) status.resolution :=
  ⟨new_coord_eq_spec _ _ _ _ hres hx, new_coord_eq_spec _ _ _ _ hres hy⟩

/-- C18 as stated fails: with view `(10,10)`, frame `(0,0)`-`(20,20)` and resolution 1 the
factor is `2` and the sample x `-5` gives the quotient `-2.5`; the code computes `-2` where the
floor formula gives `-3`. -/
theorem C18_counterexample :
    view_half.view.x ≠ 0 ∧ view_half.view.y ≠ 0 ∧ 1 ≤ view_half.resolution
      ∧ x_factor view_half = 2
      ∧ ((-5 - view_half.frame_top.x : Int) : ℚ) / x_factor view_half = -5 / 2
      ∧ (new_point view_half { x := -5, y := -5 }).x = -2
      ∧ spec_coord (-5) view_half.frame_top.x (x_factor view_half) view_half.resolution = -3 := by
  refine ⟨by decide, by decide, by decide, by decide!, by decide!, by decide!, ?_⟩
  have h : ((-5 - view_half.frame_top.x : Int) : ℚ) / x_factor view_half = -5 / 2 := by decide!
  unfold spec_coord
  rw [h]
  have h2 : ⌊(-5 / 2 : ℚ)⌋ = -3 := by
    rw [Int.floor_eq_iff]
    constructor <;> norm_num
  rw [h2]
  have h3 : (view_half.resolution : ℚ) = 1 := by decide!
  rw [h3]
  norm_num
  decide

/-- C18, amended, at the sample `(5,7)`, whose quotients are `2.5` and `3.5`. -/
theorem C18_coord_floor_when_nonneg_witness :
    (new_point view_half { x := 5, y := 7 }).x
        = spec_coord 5 view_half.frame_top.x (x_factor view_half) view_half.resolution
      ∧ (new_point view_half { x := 5, y := 7 }).y
        = spec_coord 7 view_half.frame_top.y (y_factor view_half) view_half.resolution :=
  C18_coord_floor_when_nonneg view_half { x := 5, y := 7 } (by decide) (by decide!) (by decide!)

/-! ### The two acknowledgements -/

/-- C19 fails on the code: the same control request is acknowledged with
`Connection: keep-alive` when the data channel 1 exists and with `Connection: Keep-Alive` when
it does not, so the bytes written to the control connection differ. -/
theorem C19_replies_differ :
    (client_handle_request zero_view_config 2 enter_exit_dataset pair_group view10).2.streams.getD
          2 none
        = some { rd := [], wr := control_reply_found }
      ∧ (client_handle_request no_target_config 2 enter_exit_dataset pair_group
            view10).2.streams.getD 2 none
        = some { rd := [], wr := control_reply_missing }
      ∧ control_reply_found ≠ control_reply_missing
      ∧ control_reply_found.take 54 = control_reply_missing.take 54
      ∧ control_reply_found.drop 54
          = cstr "keep-alive" ++ (control_reply_found.drop 64)
      ∧ control_reply_missing.drop 54
          = cstr "Keep-Alive" ++ (control_reply_missing.drop 64)
      ∧ control_reply_found.drop 64 = control_reply_missing.drop 64 := by
  decide!

/-! ### Blocks and chunks -/

theorem buffer_send_chunk_bytes (stream : FILE) (b : buffer_t) (payload : List Nat)
    (h1 : b.buf.take b.used = payload) (h2 : b.used = payload.length) :
    (buffer_send stream b).1 = stream ++ chunk_bytes payload := by
  rw [h2] at h1
  simp only [buffer_send, chunk_bytes, h1, h2, List.append_assoc]

theorem flatten_map_flatten (groups : List (List (List Nat))) :
    (groups.map List.flatten).flatten = groups.flatten.flatten := by
  induction groups with
  | nil => rfl
  | cons g groups ih =>
    rw [List.map_cons, List.flatten_cons, List.flatten_cons, List.flatten_append, ih]

theorem flatMap_snoc_chunks (groups : List (List (List Nat))) (pend : List (List Nat)) :
    (groups ++ [pend]).flatMap (fun grp => chunk_bytes grp.flatten)
      = groups.flatMap (fun grp => chunk_bytes grp.flatten) ++ chunk_bytes pend.flatten := by
  rw [List.flatMap_append]
  simp [List.flatMap_cons]

theorem blocks_inv_append (size flush_size : Nat) (s : FILE × buffer_t)
    (groups : List (List (List Nat))) (pend : List (List Nat)) (blk : List Nat)
    (h : blocks_inv size flush_size s groups pend) (hlen : blk.length < size) :
    ∃ groups2 pend2,
      blocks_inv size flush_size (buffer_append s.1 s.2 blk blk.length) groups2 pend2
        ∧ groups2.flatten ++ pend2 = groups.flatten ++ pend ++ [blk] := by
  obtain ⟨hs, hbuf, hused, hsize, hflush, hle, hgr⟩ := h
  unfold buffer_append
  by_cases hc : s.2.used ≥ s.2.flush_size ∨ s.2.used + blk.length ≥ s.2.size
  · refine ⟨groups ++ [pend], [blk], ?_, ?_⟩
    · simp only [if_pos hc]
      refine ⟨?_, ?_, ?_, hsize, hflush, ?_, ?_⟩
      · rw [buffer_send_chunk_bytes s.1 s.2 pend.flatten hbuf hused, flatMap_snoc_chunks, hs]
      · simp [buffer_send]
      · simp [buffer_send]
      · simp only [buffer_send, Nat.zero_add]
        omega
      · intro grp hg
        rw [List.mem_append, List.mem_singleton] at hg
        rcases hg with hg | hg
        · exact hgr grp hg
        · rw [hg, ← hused]; exact hle
    · simp [List.flatten_append]
  · refine ⟨groups, pend ++ [blk], ?_, ?_⟩
    · simp only [if_neg hc]
      refine ⟨hs, ?_, ?_, hsize, hflush, ?_, hgr⟩
      · simp only [hbuf, List.take_length, List.flatten_append, List.flatten_cons,
          List.flatten_nil, List.append_nil]
        rw [List.take_of_length_le]
        simp only [List.length_append, hused]
        omega
      · simp [hused]
      · simp only
        omega
    · simp [List.append_assoc]

theorem blocks_inv_foldl (size flush_size : Nat) (blocks : List (List Nat)) :
    ∀ (s : FILE × buffer_t) (groups : List (List (List Nat))) (pend : List (List Nat)),
      blocks_inv size flush_size s groups pend → (∀ blk ∈ blocks, blk.length < size) →
      ∃ groups2 pend2,
        blocks_inv size flush_size (append_blocks s blocks) groups2 pend2
          ∧ groups2.flatten ++ pend2 = groups.flatten ++ pend ++ blocks := by
  induction blocks with
  | nil =>
    intro s groups pend h _
    exact ⟨groups, pend, h, by simp⟩
  | cons blk blocks ih =>
    intro s groups pend h hall
    obtain ⟨g1, p1, h1, e1⟩ := blocks_inv_append size flush_size s groups pend blk h
      (hall blk (by simp))
    obtain ⟨g2, p2, h2, e2⟩ := ih _ g1 p1 h1 (fun b hb => hall b (by simp [hb]))
    refine ⟨g2, p2, h2, ?_⟩
    rw [e2, e1]
    simp [List.append_assoc]

/-- C20: for appends of blocks each shorter than the capacity, started on a fresh buffer and
ended by `buffer_send`, the stream holds exactly one chunk for each group of a partition of the
block sequence into consecutive groups, the payload of the chunk being the concatenation of
the blocks of its group: the payloads concatenate to the blocks in order, every block lies
inside one payload, and no payload exceeds the capacity. -/
theorem C20_blocks_not_split (size flush_size : Nat) (blocks : List (List Nat))
    (h : ∀ blk ∈ blocks, blk.length < size) :
    ∃ groups : List (List (List Nat)),
      groups.flatten = blocks
        ∧ (buffer_send (append_blocks ([], buffer_create size flush_size) blocks).1
              (append_blocks ([], buffer_create size flush_size) blocks).2).1
            = (groups.map List.flatten).flatMap chunk_bytes
        ∧ (groups.map List.flatten).flatten = blocks.flatten
        ∧ ∀ grp ∈ groups, grp.flatten.length ≤ size := by
  have hinit : blocks_inv size flush_size ([], buffer_create size flush_size) [] [] := by
    refine ⟨rfl, rfl, rfl, rfl, rfl, Nat.zero_le _, ?_⟩
    intro grp hg
    simp at hg
  obtain ⟨g, p, ⟨hs, hbuf, hused, _, _, hle, hgr⟩, e⟩ :=
    blocks_inv_foldl size flush_size blocks _ [] [] hinit h
  refine ⟨g ++ [p], ?_, ?_, ?_, ?_⟩
  · simpa [List.flatten_append] using e
  · rw [buffer_send_chunk_bytes _ _ p.flatten hbuf hused, hs, List.flatMap_map,
      flatMap_snoc_chunks]
  · have : (g ++ [p]).flatten = blocks := by simpa [List.flatten_append] using e
    rw [← this]
    exact flatten_map_flatten _
  · intro grp hg
    rw [List.mem_append, List.mem_singleton] at hg
    rcases hg with hg | hg
    · exact hgr grp hg
    · rw [hg, ← hused]; exact hle

/-- C20, at three blocks appended to a buffer of capacity 8 with threshold 4. -/
theorem C20_blocks_not_split_witness :
    ∃ groups : List (List (List Nat)),
      groups.flatten = [[1, 2, 3], [4, 5, 6], [7, 8]]
        ∧ (buffer_send
              (append_blocks ([], buffer_create 8 4) [[1, 2, 3], [4, 5, 6], [7, 8]]).1
              (append_blocks ([], buffer_create 8 4) [[1, 2, 3], [4, 5, 6], [7, 8]]).2).1
            = (groups.map List.flatten).flatMap chunk_bytes
        ∧ (groups.map List.flatten).flatten = [[1, 2, 3], [4, 5, 6], [7, 8]].flatten
        ∧ ∀ grp ∈ groups, grp.flatten.length ≤ 8 :=
  C20_blocks_not_split 8 4 [[1, 2, 3], [4, 5, 6], [7, 8]] (by decide)

/-! ### The marker `CLRS` -/

theorem chunks_inv_append (s : FILE × buffer_t) (groups : List (List (List Nat)))
    (pend : List (List Nat)) (blk : List Nat) (c : List Nat)
    (h : chunks_inv s groups pend) (hc : starts_with_block c groups pend) :
    ∃ groups2 pend2,
      chunks_inv (buffer_append s.1 s.2 blk blk.length) groups2 pend2
        ∧ starts_with_block c groups2 pend2
        ∧ groups2.flatten ++ pend2 = groups.flatten ++ pend ++ [blk] := by
  obtain ⟨hs, hbuf, hused⟩ := h
  obtain ⟨g, rest, hg⟩ := hc
  unfold buffer_append
  by_cases hf : s.2.used ≥ s.2.flush_size ∨ s.2.used + blk.length ≥ s.2.size
  · refine ⟨groups ++ [pend], [blk], ?_, ⟨g, rest ++ [[blk]], ?_⟩, ?_⟩
    · simp only [if_pos hf]
      refine ⟨?_, ?_, ?_⟩
      · rw [buffer_send_chunk_bytes s.1 s.2 pend.flatten hbuf hused, flatMap_snoc_chunks, hs]
      · simp [buffer_send]
      · simp [buffer_send]
    · rw [hg]
      rfl
    · simp [List.flatten_append]
  · refine ⟨groups, pend ++ [blk], ?_, ?_, ?_⟩
    · simp only [if_neg hf]
      refine ⟨hs, ?_, ?_⟩
      · simp only [hbuf, List.take_length, List.flatten_append, List.flatten_cons,
          List.flatten_nil, List.append_nil]
        rw [List.take_of_length_le]
        simp only [List.length_append, hused]
        omega
      · simp [hused]
    · cases groups with
      | nil =>
        simp only [List.nil_append, List.cons.injEq] at hg
        exact ⟨g ++ [blk], [], by simp [hg.1]⟩
      | cons g0 gs =>
        simp only [List.cons_append, List.cons.injEq] at hg
        exact ⟨g, gs ++ [pend ++ [blk]], by simp [hg.1]⟩
    · simp [List.append_assoc]

theorem chunks_inv_records (c : List Nat) (rs : List record_t) :
    ∀ (s : FILE × buffer_t) (groups : List (List (List Nat))) (pend : List (List Nat)),
      chunks_inv s groups pend → starts_with_block c groups pend → (∀ r ∈ rs, record_ok r) →
      ∃ groups2 pend2,
        chunks_inv (append_records s rs) groups2 pend2
          ∧ starts_with_block c groups2 pend2
          ∧ groups2.flatten ++ pend2 = groups.flatten ++ pend ++ rs.map record_bytes := by
  induction rs with
  | nil =>
    intro s groups pend h hc _
    exact ⟨groups, pend, h, hc, by simp⟩
  | cons r rs ih =>
    intro s groups pend h hc hok
    have hlen : (r.len * 2 + 4) * 2 = (record_bytes r).length :=
      (record_round_trip r (hok r (by simp))).2.1.symm
    obtain ⟨g1, p1, h1, c1, e1⟩ := chunks_inv_append s groups pend (record_bytes r) c h hc
    have hstep : append_records s (r :: rs)
        = append_records (buffer_append s.1 s.2 (record_bytes r) (record_bytes r).length) rs := by
      show append_records (buffer_append s.1 s.2 (record_bytes r) ((r.len * 2 + 4) * 2)) rs = _
      rw [hlen]
    obtain ⟨g2, p2, h2, c2, e2⟩ := ih _ g1 p1 h1 c1 (fun q hq => hok q (by simp [hq]))
    refine ⟨g2, p2, by rw [hstep]; exact h2, c2, ?_⟩
    rw [e2, e1]
    simp [List.append_assoc]

theorem amalgamate_records_ok (status : client_status_t) (dataset : dataset_t)
    (groups : group_list_t) : ∀ r ∈ amalgamate_records status dataset groups, record_ok r := by
  intro r hr
  obtain ⟨g, tr, _, hmem⟩ := amalgamate_records_mem status dataset groups r hr
  exact trajectory_records_ok status g tr r hmem

theorem amalgamate_records_mask_zero (status : client_status_t) (dataset : dataset_t)
    (groups : group_list_t) (h : status.mask = 0) :
    amalgamate_records status dataset groups = [] := by
  unfold amalgamate_records
  rw [h]
  induction List.range groups.groups.length with
  | nil => rfl
  | cons g l ih =>
    rw [List.flatMap_cons, ih, if_pos (Nat.zero_and _)]
    rfl

theorem toDigitsCore_no_cr (fuel : Nat) : ∀ (n : Nat) (ds : List Char),
    (∀ ch ∈ ds, ch.toNat ≠ 13) → ∀ ch ∈ Nat.toDigitsCore 16 fuel n ds, ch.toNat ≠ 13 := by
  induction fuel with
  | zero => intro n ds h; simpa [Nat.toDigitsCore] using h
  | succ f ih =>
    intro n ds h
    have hd : ∀ m, m < 16 → (Nat.digitChar m).toNat ≠ 13 := by decide
    have hd2 := hd (n % 16) (Nat.mod_lt _ (by decide))
    have hcons : ∀ ch ∈ Nat.digitChar (n % 16) :: ds, ch.toNat ≠ 13 := by
      intro ch hch
      rw [List.mem_cons] at hch
      rcases hch with hch | hch
      · rw [hch]; exact hd2
      · exact h ch hch
    simp only [Nat.toDigitsCore]
    split
    · exact hcons
    · exact ih _ _ hcons

theorem fmt_x_no_cr (n : Nat) : ∀ c ∈ fmt_x n, c ≠ 13 := by
  intro c hc
  unfold fmt_x Nat.toDigits at hc
  rw [List.mem_map] at hc
  obtain ⟨ch, hch, rfl⟩ := hc
  exact toDigitsCore_no_cr (n + 1) n [] (by simp) ch hch

theorem takeWhile_stop (l r : List Nat) (h : ∀ c ∈ l, c ≠ 13) :
    (l ++ 13 :: r).takeWhile (fun c => c ≠ 13) = l
      ∧ (l ++ 13 :: r).dropWhile (fun c => c ≠ 13) = 13 :: r := by
  induction l with
  | nil => simp [List.takeWhile, List.dropWhile]
  | cons a l ih =>
    have ha : a ≠ 13 := h a (by simp)
    obtain ⟨i1, i2⟩ := ih (fun c hc => h c (by simp [hc]))
    constructor
    · rw [List.cons_append, List.takeWhile_cons, if_pos (by simpa using ha), i1]
    · rw [List.cons_append, List.dropWhile_cons, if_pos (by simpa using ha), i2]

theorem first_chunk_payload_chunk (p rest : List Nat) :
    first_chunk_payload (chunk_bytes p ++ rest) = some p := by
  have hcr : cstr "\r\n" = [13, 10] := by decide
  have hshape : chunk_bytes p ++ rest
      = fmt_x (p.length + header.length + footer.length)
          ++ 13 :: (10 :: (header ++ (p ++ (footer ++ (cstr "\r\n" ++ rest))))) := by
    simp only [chunk_bytes, hcr, List.append_assoc, List.cons_append, List.nil_append]
  obtain ⟨ht, hd⟩ := takeWhile_stop (fmt_x (p.length + header.length + footer.length))
    (10 :: (header ++ (p ++ (footer ++ (cstr "\r\n" ++ rest))))) (fmt_x_no_cr _)
  unfold first_chunk_payload
  rw [hshape, ht, hd, hex_value_fmt_x]
  have h1 : List.drop 2 (13 :: (10 :: (header ++ (p ++ (footer ++ (cstr "\r\n" ++ rest))))))
      = header ++ (p ++ (footer ++ (cstr "\r\n" ++ rest))) := rfl
  rw [h1, List.take_left', List.drop_left']
  · have h2 : p.length + header.length + footer.length - header.length - footer.length
        = p.length := by omega
    rw [if_pos ⟨by omega, rfl⟩, h2, List.take_left']
    rfl
  · rfl
  · rfl

/-- C21, amended: for every call of `dataset_amalgamate2` that starts with `used = 0` on a
buffer with a positive flush threshold and a capacity above 4, the chunks written are one for
each group of a partition of the blocks `CLRS`, record 1, record 2, ... into consecutive
groups, the first group starts with the block `CLRS`, so the payload of the first chunk begins
with `CLRS`; and when no record is emitted (in particular when the mask is 0) the call writes
the single chunk whose payload is `CLRS`. -/
theorem C21_first_chunk_marker (status : client_status_t) (dataset : dataset_t)
    (groups : group_list_t) (buf : buffer_t) (stream : FILE)
    (hu : buf.used = 0) (hf : 0 < buf.flush_size) (hs : 4 < buf.size) :
    ∃ (first : List (List Nat)) (rest : List (List (List Nat))),
      (dataset_amalgamate2 status dataset groups buf stream).1
          = stream ++ (((cstr "CLRS" :: first) :: rest).map List.flatten).flatMap chunk_bytes
        ∧ ((cstr "CLRS" :: first) :: rest).flatten
            = cstr "CLRS" :: (amalgamate_records status dataset groups).map record_bytes
        ∧ first_chunk_payload (dataset_amalgamate2 status dataset groups buf []).1
            = some (cstr "CLRS" ++ first.flatten)
        ∧ (amalgamate_records status dataset groups = [] →
            (dataset_amalgamate2 status dataset groups buf stream).1
              = stream ++ chunk_bytes (cstr "CLRS"))
        ∧ (status.mask = 0 →
            (dataset_amalgamate2 status dataset groups buf stream).1
              = stream ++ chunk_bytes (cstr "CLRS")) := by
  have hnf : ¬ (buf.used ≥ buf.flush_size ∨ buf.used + 4 ≥ buf.size) := by
    rw [hu]; omega
  have h0 : buffer_append [] buf (cstr "CLRS") 4
      = ([], { buf with buf := buf.buf.take buf.used ++ (cstr "CLRS").take 4,
                        used := buf.used + 4 }) := by
    unfold buffer_append
    rw [if_neg hnf]
  have hinv : chunks_inv (buffer_append [] buf (cstr "CLRS") 4) [] [cstr "CLRS"] := by
    rw [h0]
    refine ⟨rfl, ?_, ?_⟩
    · simp only [hu, List.take_zero, List.nil_append, Nat.zero_add]
      decide
    · simp only [hu, Nat.zero_add]
      decide
  obtain ⟨g, p, ⟨hst, hbuf, hused⟩, ⟨first, rest, hfirst⟩, e⟩ :=
    chunks_inv_records (cstr "CLRS") (amalgamate_records status dataset groups) _ [] [cstr "CLRS"]
      hinv ⟨[], [], rfl⟩ (amalgamate_records_ok status dataset groups)
  have hout : (dataset_amalgamate2 status dataset groups buf []).1
      = (((cstr "CLRS" :: first) :: rest).map List.flatten).flatMap chunk_bytes := by
    rw [dataset_amalgamate2_eq, buffer_send_chunk_bytes _ _ p.flatten hbuf hused, hst,
      ← flatMap_snoc_chunks, hfirst, List.flatMap_map]
  have hstream : (dataset_amalgamate2 status dataset groups buf stream).1
      = stream ++ (dataset_amalgamate2 status dataset groups buf []).1 := by
    have := dataset_amalgamate2_onto status dataset groups buf stream []
    rw [List.append_nil] at this
    rw [this]
  have hflat : ((cstr "CLRS" :: first) :: rest).flatten
      = cstr "CLRS" :: (amalgamate_records status dataset groups).map record_bytes := by
    rw [← hfirst, List.flatten_append]
    simpa using e
  have hempty : amalgamate_records status dataset groups = [] →
      (dataset_amalgamate2 status dataset groups buf stream).1
        = stream ++ chunk_bytes (cstr "CLRS") := by
    intro hnil
    rw [hnil] at hflat
    have hfr : first = [] ∧ rest.flatten = [] := by
      simp only [List.flatten_cons, List.cons_append, List.map_nil, List.cons.injEq, true_and,
        List.append_eq_nil] at hflat
      exact hflat
    have hrest : ∀ grp ∈ rest, grp = [] := by
      intro grp hg
      have := List.flatten_eq_nil_iff.mp hfr.2
      exact this grp hg
    rw [hstream, dataset_amalgamate2_eq, hnil]
    have hrec : append_records (buffer_append [] buf (cstr "CLRS") 4) [] =
        buffer_append [] buf (cstr "CLRS") 4 := rfl
    rw [hrec, buffer_send_chunk_bytes _ _ (cstr "CLRS") (by rw [h0]; simp [hu]; decide)
      (by rw [h0]; simp [hu]; decide), h0]
    rfl
  refine ⟨first, rest, by rw [hstream, hout], hflat, ?_, hempty, ?_⟩
  · rw [hout, List.map_cons, List.flatMap_cons, first_chunk_payload_chunk]
    simp [List.flatten_cons]
  · intro hm
    exact hempty (amalgamate_records_mask_zero status dataset groups hm)

/-- C21 as stated fails: on an empty buffer whose flush threshold is 0 the append of `CLRS`
flushes first, so the first chunk written has an empty payload and `CLRS` comes in the second
chunk. -/
theorem C21_counterexample :
    zero_threshold_buffer.used = 0
      ∧ (dataset_amalgamate2 view10 enter_exit_dataset { groups := [] } zero_threshold_buffer
            []).1
          = chunk_bytes [] ++ chunk_bytes (cstr "CLRS")
      ∧ first_chunk_payload
          (dataset_amalgamate2 view10 enter_exit_dataset { groups := [] } zero_threshold_buffer
            []).1 = some []
      ∧ ¬ ∃ p, first_chunk_payload
          (dataset_amalgamate2 view10 enter_exit_dataset { groups := [] } zero_threshold_buffer
            []).1 = some (cstr "CLRS" ++ p) := by
  have h : first_chunk_payload
      (dataset_amalgamate2 view10 enter_exit_dataset { groups := [] } zero_threshold_buffer
        []).1 = some [] := by decide!
  refine ⟨rfl, by decide!, h, ?_⟩
  rintro ⟨p, hp⟩
  rw [h] at hp
  have hcl : cstr "CLRS" = [67, 76, 82, 83] := by decide
  rw [hcl] at hp
  simp at hp

/-- C21, amended, at the buffer `main` creates and the records of `enter_exit_dataset`. -/
theorem C21_first_chunk_marker_witness :
    ∃ (first : List (List Nat)) (rest : List (List (List Nat))),
      (dataset_amalgamate2 view10 enter_exit_dataset pair_group (buffer_create 16384 4096) []).1
          = [] ++ (((cstr "CLRS" :: first) :: rest).map List.flatten).flatMap chunk_bytes
        ∧ ((cstr "CLRS" :: first) :: rest).flatten
            = cstr "CLRS"
                :: (amalgamate_records view10 enter_exit_dataset pair_group).map record_bytes :=
  (C21_first_chunk_marker view10 enter_exit_dataset pair_group (buffer_create 16384 4096) []
    (by decide) (by decide) (by decide)).imp
    (fun _ h => h.imp (fun _ h2 => ⟨h2.1, h2.2.1⟩))

/-! ### Records and the `int` points of their runs -/

theorem run_sim_push (g : Nat) (c : clip_t) (d : run_t) (p : point_t) (h : run_sim g c d) :
    run_sim g (push_point c p) { d with run := d.run ++ [p] } := by
  obtain ⟨h1, h2, h3, h4, h5⟩ := h
  refine ⟨h1, h2, ?_, ?_, h5⟩
  · simp only [push_point, h3, List.map_append, List.map_cons, List.map_nil]
  · simp only [push_point, h4, List.length_append, List.length_singleton]
    omega

theorem run_sim_step (status : client_status_t) (g : Nat) (c : clip_t) (d : run_t)
    (new_p : point_t) (h : run_sim g c d) :
    run_sim g (clip_step status g c new_p) (run_step status d new_p) := by
  obtain ⟨hl, hi, h3, h4, h5⟩ := h
  unfold clip_step run_step
  by_cases hv : in_view status new_p = true
  · rw [if_pos hv, if_pos hv]
    by_cases ha : c.last_p.x ≠ INT_MIN ∧ c.in_ = false
    · have ha2 : d.last_p.x ≠ INT_MIN ∧ d.in_ = false := by rw [← hl, ← hi]; exact ha
      by_cases hn : new_p.x ≠ c.last_p.x ∨ new_p.y ≠ c.last_p.y
      · have hn2 : new_p.x ≠ d.last_p.x ∨ new_p.y ≠ d.last_p.y := by rw [← hl]; exact hn
        simp only [if_pos ha, if_pos ha2, if_pos hn, if_pos hn2, push_point]
        refine ⟨rfl, rfl, ?_, ?_, h5⟩
        · simp only [h3, hl, List.map_append, List.map_cons, List.map_nil]
        · simp only [h4, List.length_append, List.length_singleton]
          omega
      · have hn2 : ¬ (new_p.x ≠ d.last_p.x ∨ new_p.y ≠ d.last_p.y) := by rw [← hl]; exact hn
        simp only [if_pos ha, if_pos ha2, if_neg hn, if_neg hn2, push_point]
        refine ⟨rfl, rfl, ?_, ?_, h5⟩
        · simp only [h3, hl, List.map_append, List.map_cons, List.map_nil]
        · simp only [h4, List.length_append, List.length_singleton]
          omega
    · have ha2 : ¬ (d.last_p.x ≠ INT_MIN ∧ d.in_ = false) := by rw [← hl, ← hi]; exact ha
      by_cases hn : new_p.x ≠ c.last_p.x ∨ new_p.y ≠ c.last_p.y
      · have hn2 : new_p.x ≠ d.last_p.x ∨ new_p.y ≠ d.last_p.y := by rw [← hl]; exact hn
        simp only [if_neg ha, if_neg ha2, if_pos hn, if_pos hn2, push_point]
        refine ⟨rfl, rfl, ?_, ?_, h5⟩
        · simp only [h3, List.map_append, List.map_cons, List.map_nil]
        · simp only [h4, List.length_append, List.length_singleton]
          omega
      · have hn2 : ¬ (new_p.x ≠ d.last_p.x ∨ new_p.y ≠ d.last_p.y) := by rw [← hl]; exact hn
        simp only [if_neg ha, if_neg ha2, if_neg hn, if_neg hn2]
        exact ⟨rfl, rfl, h3, h4, h5⟩
  · rw [if_neg hv, if_neg hv]
    by_cases hin : c.in_ = true
    · have hin2 : d.in_ = true := by rw [← hi]; exact hin
      simp only [if_pos hin, if_pos hin2, push_point]
      refine ⟨rfl, rfl, rfl, rfl, ?_⟩
      simp only [List.map_append, List.map_cons, List.map_nil, record_of_run, h5, h3, h4,
        List.length_append, List.length_singleton]
      congr 3
      omega
    · have hin2 : ¬ d.in_ = true := by rw [← hi]; exact hin
      simp only [if_neg hin, if_neg hin2]
      exact ⟨rfl, rfl, h3, h4, h5⟩

theorem run_sim_foldl (status : client_status_t) (g : Nat) (ms : List point_t) :
    ∀ c d, run_sim g c d →
      run_sim g (ms.foldl (clip_step status g) c) (ms.foldl (run_step status) d) := by
  induction ms with
  | nil => intro c d h; exact h
  | cons m ms ih =>
    intro c d h
    exact ih _ _ (run_sim_step status g c d m h)

theorem trajectory_records_eq_runs (status : client_status_t) (g : Nat) (tr : trajectory_t) :
    trajectory_records status g tr = (trajectory_runs status tr).map (record_of_run g) := by
  have h := run_sim_foldl status g (mapped_samples status tr) clip_init run_init
    ⟨rfl, rfl, rfl, rfl, rfl⟩
  rw [← sample_loop_eq] at h
  obtain ⟨_, h2, h3, h4, h5⟩ := h
  simp only [trajectory_records, trajectory_runs]
  rw [← h2]
  by_cases hin : (sample_loop status g tr).in_ = true
  · rw [if_pos hin, if_pos hin, List.map_append, ← h5]
    simp only [List.map_cons, List.map_nil, record_of_run]
    rw [← h3, ← h4]
  · rw [if_neg hin, if_neg hin, h5]

theorem stored_point_lt (p : point_t) : (stored_point p).1 < 65536 ∧ (stored_point p).2 < 65536 :=
  ⟨uint16_lt _, uint16_lt _⟩

theorem record_of_run_fields (g : Nat) (run : List point_t) (h : run.length < 65536) :
    record_of_run g run
      = { rgb := group_colour g, len := run.length, points := run.map stored_point } := by
  unfold record_of_run make_record group_colour
  rw [Nat.mod_eq_of_lt h]
  have : List.take run.length (List.map stored_point run) = List.map stored_point run := by
    rw [List.take_of_length_le]
    simp
  rw [this]

theorem record_of_run_ok (g : Nat) (run : List point_t) : record_ok (record_of_run g run) := by
  apply make_record_ok
  · simp
  · intro p hp
    rw [List.mem_map] at hp
    obtain ⟨q, _, rfl⟩ := hp
    exact stored_point_lt q

theorem point_of_units_stored (p : point_t) (hx0 : 0 ≤ p.x) (hx : p.x < 65536) (hy0 : 0 ≤ p.y)
    (hy : p.y < 65536) : point_of_units (stored_point p) = p := by
  cases p with
  | mk x y =>
    simp only at hx0 hx hy0 hy
    simp only [point_of_units, stored_point, uint16, point_t.mk.injEq]
    constructor
    · rw [Int.toNat_of_nonneg (Int.emod_nonneg _ (by decide)), Int.emod_eq_of_lt hx0 hx]
    · rw [Int.toNat_of_nonneg (Int.emod_nonneg _ (by decide)), Int.emod_eq_of_lt hy0 hy]

/-- C6, amended: the records a trajectory of group `g` emits are, in order, those of its runs
of `int` points; and for every such run of `n < 65536` points the record has the layout
`[R,G,B][count][x0,y0,...]` in 16-bit units and decodes to the colour triple copied for `g`, to
`count = n`, and to the points of the run with every coordinate cast to `uint16_t` (reduced
modulo `65536`), which are the points of the run themselves when all coordinates lie in
`[0, 65536)`. -/
theorem C6_record_round_trip_cast (status : client_status_t) (g : Nat) (tr : trajectory_t)
    (run : List point_t) (hrun : run ∈ trajectory_runs status tr) (hn : run.length < 65536) :
    trajectory_records status g tr = (trajectory_runs status tr).map (record_of_run g)
      ∧ record_of_run g run ∈ trajectory_records status g tr
      ∧ units_of_bytes (record_bytes (record_of_run g run))
          = group_colour g ++ [run.length]
              ++ (run.map stored_point).flatMap (fun p => [p.1, p.2])
      ∧ decode_record (record_bytes (record_of_run g run))
          = some (group_colour g, run.length, run.map stored_point)
      ∧ ((∀ p ∈ run, 0 ≤ p.x ∧ p.x < 65536 ∧ 0 ≤ p.y ∧ p.y < 65536) →
          (run.map stored_point).map point_of_units = run) := by
  have heq := trajectory_records_eq_runs status g tr
  have hrt := record_round_trip (record_of_run g run) (record_of_run_ok g run)
  rw [record_of_run_fields g run hn] at hrt
  simp only [List.length_map] at hrt
  refine ⟨heq, ?_, ?_, ?_, ?_⟩
  · rw [heq]
    exact List.mem_map_of_mem _ hrun
  · rw [record_of_run_fields g run hn]
    exact hrt.1
  · rw [record_of_run_fields g run hn]
    exact hrt.2.2
  · intro hall
    rw [List.map_map]
    conv_rhs => rw [← List.map_id run]
    apply List.map_congr_left
    intro p hp
    obtain ⟨a, b, c, d⟩ := hall p hp
    exact point_of_units_stored p a b c d

/-- C6 as stated fails: the run of `negative_trajectory` has the `int` points `(-5,-5)`,
`(5,5)`; its record decodes to the points `(65531,65531)`, `(5,5)`, not to the points of the
run. -/
theorem C6_counterexample :
    trajectory_runs view10 negative_trajectory
        = [[{ x := -5, y := -5 }, { x := 5, y := 5 }]]
      ∧ trajectory_records view10 0 negative_trajectory
          = [record_of_run 0 [{ x := -5, y := -5 }, { x := 5, y := 5 }]]
      ∧ decode_record (record_bytes (record_of_run 0 [{ x := -5, y := -5 }, { x := 5, y := 5 }]))
          = some ([180, 0, 0], 2, [(65531, 65531), (5, 5)])
      ∧ [(65531, 65531), (5, 5)].map point_of_units
          ≠ [{ x := -5, y := -5 }, { x := 5, y := 5 }] := by
  decide!

/-- C6, amended, at the run of `enter_exit_trajectory`. -/
theorem C6_record_round_trip_cast_witness :
    decode_record (record_bytes (record_of_run 0
        [{ x := 100, y := 100 }, { x := 5, y := 5 }, { x := 200, y := 200 }]))
      = some (group_colour 0, 3,
          [{ x := 100, y := 100 }, { x := 5, y := 5 }, { x := 200, y := 200 }].map stored_point)
      ∧ ([{ x := 100, y := 100 }, { x := 5, y := 5 }, { x := 200, y := 200 }].map
            stored_point).map point_of_units
          = [{ x := 100, y := 100 }, { x := 5, y := 5 }, { x := 200, y := 200 }] :=
  ⟨(C6_record_round_trip_cast view10 0 enter_exit_trajectory
      [{ x := 100, y := 100 }, { x := 5, y := 5 }, { x := 200, y := 200 }]
      (by decide!) (by decide)).2.2.2.1,
   (C6_record_round_trip_cast view10 0 enter_exit_trajectory
      [{ x := 100, y := 100 }, { x := 5, y := 5 }, { x := 200, y := 200 }]
      (by decide!) (by decide)).2.2.2.2 (by decide)⟩

/-! ### No test on the parsed view request -/

theorem control_call_none (config : amalgamate_config_t) (fd : Nat) (data_fd : Int)
    (status : client_status_t) (h : lookup_stream config data_fd = none) :
    control_call config fd data_fd status = none := by
  unfold control_call
  rw [h]

theorem handle_control_of_call (config : amalgamate_config_t) (fd : Nat) (dataset : dataset_t)
    (groups : group_list_t) (data_fd : Int) (status : client_status_t) (k : amalgamate_call_t)
    (h : control_call config fd data_fd status = some k) :
    handle_control config fd dataset groups data_fd status
      = { stream_write config fd control_reply_found with
          buf := (dataset_amalgamate2 k.status dataset groups k.buf k.stream.wr).2,
          streams := (stream_write config fd control_reply_found).streams.set k.data_fd
            (some { k.stream with
              wr := (dataset_amalgamate2 k.status dataset groups k.buf k.stream.wr).1 }) } := by
  unfold control_call at h
  unfold handle_control
  cases hl : lookup_stream config data_fd with
  | none => rw [hl] at h; exact Option.noConfusion h
  | some t =>
    rw [hl] at h
    simp only at h ⊢
    cases hg : (stream_write config fd control_reply_found).streams.getD data_fd.toNat none with
    | none => rw [hg] at h; exact Option.noConfusion h
    | some tgt =>
      rw [hg] at h
      simp only [Option.some.injEq] at h
      rw [← h]

/-- C10, amended: no test on the parsed view width, view height or resolution stands before
the call of `dataset_amalgamate2`.  For every control request read from a live connection
whose target id resolves, the acknowledgement is written to the requesting connection and the
call is made with the parsed view request, the shared buffer and the target stream, whatever
the parsed values are, 0 included; and when no division of the call has a zero divisor,
`client_handle_request` returns 1 with the output of the call in the buffer and on the target
stream. -/
theorem C10_no_test_before_call (config : amalgamate_config_t) (fd : Nat)
    (dataset : dataset_t) (groups : group_list_t) (status0 : client_status_t) (s t : stream_t)
    (cmd rest : List Nat)
    (hs : config.streams.getD fd none = some s)
    (hreq : read_request s.rd = some (cmd, rest))
    (hdata : ¬ (starts_with cmd "POST /data" = true ∨ starts_with cmd "GET /data" = true))
    (hhtml : ¬ starts_with cmd "GET /control/html" = true)
    (hctl : starts_with cmd "POST /control" = true ∨ starts_with cmd "GET /control" = true)
    (hres : lookup_stream config (parse_control cmd status0).1 = some t) :
    ∃ tgt : stream_t,
      control_call (stream_consume config fd rest) fd (parse_control cmd status0).1
          (parse_control cmd status0).2
        = some { status := (parse_control cmd status0).2, buf := config.buf,
                 data_fd := (parse_control cmd status0).1.toNat, stream := tgt }
      ∧ tgt = (if (parse_control cmd status0).1.toNat = fd then
                { rd := rest, wr := s.wr ++ control_reply_found } else t)
      ∧ (stream_write (stream_consume config fd rest) fd control_reply_found).streams.getD fd none
          = some { rd := rest, wr := s.wr ++ control_reply_found }
      ∧ (divisions_defined (parse_control cmd status0).2 →
          (client_handle_request config fd dataset groups status0).1 = 1
          ∧ (client_handle_request config fd dataset groups status0).2.buf
              = (dataset_amalgamate2 (parse_control cmd status0).2 dataset groups config.buf
                  tgt.wr).2
          ∧ (client_handle_request config fd dataset groups status0).2.streams.getD
                (parse_control cmd status0).1.toNat none
              = some { tgt with
                  wr := (dataset_amalgamate2 (parse_control cmd status0).2 dataset groups
                    config.buf tgt.wr).1 }) := by
  obtain ⟨h0, hlt, hlive⟩ := lookup_stream_some config _ t hres
  have hreqr : (stream_write (stream_consume config fd rest) fd control_reply_found).streams.getD
      fd none = some { rd := rest, wr := s.wr ++ control_reply_found } := by
    rw [stream_write_getD, if_pos rfl, stream_consume_getD, if_pos rfl, hs]
    rfl
  have htgt : (stream_write (stream_consume config fd rest) fd
        control_reply_found).streams.getD (parse_control cmd status0).1.toNat none
      = some (if (parse_control cmd status0).1.toNat = fd then
          { rd := rest, wr := s.wr ++ control_reply_found } else t) := by
    by_cases hk : (parse_control cmd status0).1.toNat = fd
    · rw [if_pos hk, hk]
      exact hreqr
    · rw [if_neg hk, stream_write_getD, if_neg hk, stream_consume_getD, if_neg hk]
      exact hlive
  obtain ⟨t2, ht2⟩ := stream_consume_live config fd _ rest t hlive
  have hres2 : lookup_stream (stream_consume config fd rest) (parse_control cmd status0).1
      = some t2 :=
    lookup_stream_of_live _ _ t2 h0 (by rw [stream_consume_length]; exact hlt) ht2
  have hcall : control_call (stream_consume config fd rest) fd (parse_control cmd status0).1
        (parse_control cmd status0).2
      = some { status := (parse_control cmd status0).2, buf := config.buf,
               data_fd := (parse_control cmd status0).1.toNat,
               stream := (if (parse_control cmd status0).1.toNat = fd then
                 { rd := rest, wr := s.wr ++ control_reply_found } else t) } := by
    unfold control_call
    rw [hres2]
    simp only [htgt, stream_write_buf, stream_consume_buf]
  refine ⟨_, hcall, rfl, hreqr, ?_⟩
  intro _
  have hh := handle_control_of_call (stream_consume config fd rest) fd dataset groups _ _ _ hcall
  have hr : client_handle_request config fd dataset groups status0
      = (1, handle_control (stream_consume config fd rest) fd dataset groups
          (parse_control cmd status0).1 (parse_control cmd status0).2) := by
    simp only [client_handle_request, hs, hreq, dispatch, if_neg hdata, if_neg hhtml,
      if_pos hctl]
  rw [hr, hh]
  refine ⟨rfl, rfl, ?_⟩
  have hl := stream_write_length (stream_consume config fd rest) fd control_reply_found
  rw [stream_consume_length] at hl
  simp [List.getD_eq_getElem?_getD, List.getElem?_set, hl, hlt]

/-- C10, amended, at `zero_view_request`, where the call is made with view `(0,0)` and
resolution `0`, and at `plain_request`, where no divisor is zero and 1 is returned. -/
theorem C10_no_test_before_call_witness :
    (∃ tgt : stream_t,
      control_call (stream_consume zero_view_config 2 []) 2
          (parse_control (cstr "GET /control/1/0/0/0/0/10/10/0/1") view10).1
          (parse_control (cstr "GET /control/1/0/0/0/0/10/10/0/1") view10).2
        = some { status := (parse_control (cstr "GET /control/1/0/0/0/0/10/10/0/1") view10).2,
                 buf := zero_view_config.buf,
                 data_fd :=
                   (parse_control (cstr "GET /control/1/0/0/0/0/10/10/0/1") view10).1.toNat,
                 stream := tgt })
      ∧ (client_handle_request plain_config 2 enter_exit_dataset pair_group view10).1 = 1 :=
  ⟨(C10_no_test_before_call zero_view_config 2 enter_exit_dataset pair_group view10
      { rd := zero_view_request, wr := [] } { rd := [], wr := [] }
      (cstr "GET /control/1/0/0/0/0/10/10/0/1") []
      (by decide) (by decide) (by decide) (by decide) (by decide) (by decide)).imp
      (fun _ h => h.1),
   (C10_no_test_before_call plain_config 2 enter_exit_dataset pair_group view10
      { rd := plain_request, wr := [] } { rd := [], wr := [] }
      (cstr "GET /control/1/10/10/0/0/10/10/1/1") []
      (by decide) (by decide) (by decide) (by decide) (by decide) (by decide)).elim
      (fun _ h => (h.2.2.2 (by decide)).1)⟩

/-- C10 as stated fails: the request `GET /control/1/0/0/0/0/10/10/0/1` parses to view `(0,0)`
and resolution `0`, is acknowledged like any other, and `dataset_amalgamate2` is called with
it; with no group to clip the call returns and its chunk is on the data channel 1. -/
theorem C10_counterexample :
    read_request zero_view_request = some (cstr "GET /control/1/0/0/0/0/10/10/0/1", [])
      ∧ parse_control (cstr "GET /control/1/0/0/0/0/10/10/0/1") view10 = (1, zero_view_status)
      ∧ zero_view_status.view.x = 0 ∧ zero_view_status.resolution = 0
      ∧ control_call (stream_consume zero_view_config 2 []) 2 1 zero_view_status
          = some { status := zero_view_status, buf := buffer_create 16384 4096, data_fd := 1,
                   stream := { rd := [], wr := [] } }
      ∧ client_handle_request zero_view_config 2 enter_exit_dataset { groups := [] } view10
          = (1, { htmlfile := none,
                  buf := { buf := [67, 76, 82, 83], size := 16384, used := 0,
                           flush_size := 4096 },
                  streams := [none,
                    some { rd := [], wr := (dataset_amalgamate2 zero_view_status
                      enter_exit_dataset { groups := [] } (buffer_create 16384 4096) []).1 },
                    some { rd := [], wr := control_reply_found }] })
      ∧ (dataset_amalgamate2 zero_view_status enter_exit_dataset { groups := [] }
            (buffer_create 16384 4096) []).1
          = cstr "45\r\n" ++ header ++ cstr "CLRS" ++ footer ++ cstr "\r\n" := by
  decide!

end ServerPush
